import Mathlib

/-!
Verification of the geometry-edit engine of the patch-editor repository.

The engine (source: the TypeScript module containing findAdjacentPatches,
analysePostEdit, detectGap, syncBoundaryByProjection,
syncBoundaryByDisplacement, extractSegmentFromRing, and the simplifier
module) is embedded shallowly below.  Coordinates are exact rationals
standing in for IEEE doubles; all arithmetic the engine performs on
coordinates (add, sub, mul, div, comparisons, min, max) is translated
one-to-one.  The polygon-clipping primitives the engine imports from the
external @turf/turf library (intersect, difference, area, distance) are not
part of the repository; they are abstracted as an oracle parameter and, for
concrete evaluations, instantiated by an exact planar library for
axis-aligned rectangles.
-/

namespace GeomEdit

/-- Exact rational numbers in canonical form (positive denominator, reduced).
Stands in for the IEEE doubles of the source; built here instead of Mathlib
ℚ so that every operation reduces in the kernel. -/
structure Q where
  num : Int
  den : Int
deriving DecidableEq, Repr

/-- Build a canonical rational from a fraction.  A zero denominator maps to
0 (unreachable in the embedding: the source guards every division). -/
def mkQ (n d : Int) : Q :=
  if d = 0 then ⟨0, 1⟩
  else
    let n' := if d < 0 then -n else n
    let d' := if d < 0 then -d else d
    let g : Int := Int.gcd n' d'
    ⟨n' / g, d' / g⟩

instance : OfNat Q n := ⟨⟨n, 1⟩⟩

instance : Inhabited Q := ⟨0⟩

def Q.add (a b : Q) : Q := mkQ (a.num * b.den + b.num * a.den) (a.den * b.den)

def Q.sub (a b : Q) : Q := mkQ (a.num * b.den - b.num * a.den) (a.den * b.den)

def Q.mul (a b : Q) : Q := mkQ (a.num * b.num) (a.den * b.den)

def Q.div (a b : Q) : Q := mkQ (a.num * b.den) (a.den * b.num)

def Q.neg (a : Q) : Q := ⟨-a.num, a.den⟩

instance : Add Q := ⟨Q.add⟩
instance : Sub Q := ⟨Q.sub⟩
instance : Mul Q := ⟨Q.mul⟩
instance : Div Q := ⟨Q.div⟩
instance : Neg Q := ⟨Q.neg⟩

/-- Strict order, by cross multiplication (denominators are positive for
every value the embedding constructs). -/
def Q.lt (a b : Q) : Prop := a.num * b.den < b.num * a.den

def Q.le (a b : Q) : Prop := a.num * b.den ≤ b.num * a.den

instance : LT Q := ⟨Q.lt⟩
instance : LE Q := ⟨Q.le⟩

instance (a b : Q) : Decidable (a < b) :=
  inferInstanceAs (Decidable (a.num * b.den < b.num * a.den))

instance (a b : Q) : Decidable (a ≤ b) :=
  inferInstanceAs (Decidable (a.num * b.den ≤ b.num * a.den))

/-- JS Math.min. -/
def Q.min (a b : Q) : Q := if a < b then a else b

/-- JS Math.max. -/
def Q.max (a b : Q) : Q := if a < b then b else a

/-! ### Geometry data model (GeoJSON coordinate arrays) -/

/-- A GeoJSON position: longitude, latitude. -/
abbrev Position := Q × Q

/-- A polygon ring: ordered positions, open or closed form. -/
abbrev LinearRing := List Position

/-- A polygon: outer ring followed by holes. -/
abbrev PolygonCoords := List LinearRing

/-- A MultiPolygon coordinate array. -/
abbrev MultiPolygonCoords := List PolygonCoords

/-- Patch geometries arrive either as Polygon or MultiPolygon. -/
inductive Geom
  | polygon (coords : PolygonCoords)
  | multiPolygon (coords : MultiPolygonCoords)
deriving DecidableEq, Repr

/-- The normalisation the source applies at every use site:
a Polygon becomes a one-element MultiPolygon. -/
def Geom.toMP : Geom → MultiPolygonCoords
  | .polygon coords => [coords]
  | .multiPolygon coords => coords

/-- A patch feature: id, code and (possibly null) geometry. -/
structure PatchFeature where
  id : String
  code : String
  geometry : Option Geom
deriving DecidableEq, Repr

/-! ### Constants of the source -/

/-- Tolerance for geometric shared boundary detection (degrees²), 4e-8. -/
def GEOMETRIC_TOLERANCE_DEG_SQ : Q := mkQ 4 100000000

/-- Padding for bounding-box overlap pre-filter (degrees), 0.001. -/
def BBOX_PAD_DEG : Q := mkQ 1 1000

/-- Minimum contiguous shared vertices for a shared boundary segment. -/
def MIN_SHARED_VERTICES : Nat := 3

/-- Degenerate-segment guard of the point-to-segment projections, 1e-20. -/
def TINY_LEN_SQ : Q := mkQ 1 (10 ^ 20)

/-- Stand-in for the JS value Infinity used to seed minimum searches.
Only its being larger than every distance the embedding computes matters;
every call site below guards the vertex count, so the seed never survives. -/
def INF_SENTINEL : Q := ⟨10 ^ 30, 1⟩

/-! ### Ring primitives -/

/-- Number of vertices ignoring a closing vertex equal to the first. -/
def getOpenVertexCount (ring : LinearRing) : Nat :=
  if ring.length = 0 then 0
  else
    let first := ring.headD (0, 0)
    let last := ring.getLastD (0, 0)
    if ring.length > 1 ∧ first = last then ring.length - 1 else ring.length

/-- Append a copy of the first vertex when the ring is not already closed. -/
def ensureClosedRing (ring : LinearRing) : LinearRing :=
  match ring with
  | [] => []
  | first :: _ =>
    if first = ring.getLastD (0, 0) then ring else ring ++ [first]

/-- Axis-aligned bounding box: minX, minY, maxX, maxY. -/
structure BBox where
  minX : Q
  minY : Q
  maxX : Q
  maxY : Q
deriving DecidableEq, Repr

/-- Bounding box of a ring.  The source seeds with ±Infinity; every call
site guards a positive vertex count, so the empty case is unreachable. -/
def getRingBBox (ring : LinearRing) : BBox :=
  match ring with
  | [] => ⟨0, 0, 0, 0⟩
  | p :: rest =>
    rest.foldl
      (fun bb q =>
        ⟨Q.min bb.minX q.1, Q.min bb.minY q.2, Q.max bb.maxX q.1, Q.max bb.maxY q.2⟩)
      ⟨p.1, p.2, p.1, p.2⟩

/-- Minkowski-padded bbox overlap test, written as the source writes it. -/
def bboxesOverlap (a b : BBox) (pad : Q) : Bool :=
  ¬ (a.maxX + pad < b.minX - pad ∨
     a.minX - pad > b.maxX + pad ∨
     a.maxY + pad < b.minY - pad ∨
     a.minY - pad > b.maxY + pad)

/-- JS a > b. -/
def Q.gt (a b : Q) : Prop := b < a

instance (a b : Q) : Decidable (Q.gt a b) :=
  inferInstanceAs (Decidable (b < a))

/-- Squared distance from (px, py) to the segment (a, b), with the
degenerate-segment branch of the source. -/
def distSqToSeg (px py : Q) (a b : Position) : Q :=
  let dx := b.1 - a.1
  let dy := b.2 - a.2
  let lenSq := dx * dx + dy * dy
  if lenSq < TINY_LEN_SQ then
    let ex := px - a.1
    let ey := py - a.2
    ex * ex + ey * ey
  else
    let t := Q.max 0 (Q.min 1 (((px - a.1) * dx + (py - a.2) * dy) / lenSq))
    let ex := px - (a.1 + t * dx)
    let ey := py - (a.2 + t * dy)
    ex * ex + ey * ey

/-- Fast squared distance from a point to the nearest edge of a ring,
with the segment index of that edge (pointToRingDistDegSqWithIndex). -/
def pointToRingDistDegSqWithIndex (px py : Q) (ring : LinearRing) (openCount : Nat) :
    Q × Nat :=
  (((List.range openCount).foldl
    (fun (acc : Option (Q × Nat)) i =>
      let a := ring.getD i (0, 0)
      let b := ring.getD ((i + 1) % openCount) (0, 0)
      let dSq := distSqToSeg px py a b
      match acc with
      | none => some (dSq, i)
      | some best => if dSq < best.1 then some (dSq, i) else some best)
    none)).getD (INF_SENTINEL, 0)

/-- Index of the nearest vertex of a ring (findNearestVertexIndex). -/
def findNearestVertexIndex (px py : Q) (ring : LinearRing) (openCount : Nat) : Nat :=
  let best :=
    (List.range openCount).foldl
      (fun (acc : Option (Q × Nat)) i =>
        let v := ring.getD i (0, 0)
        let dx := v.1 - px
        let dy := v.2 - py
        let dSq := dx * dx + dy * dy
        match acc with
        | none => some (dSq, i)
        | some b => if dSq < b.1 then some (dSq, i) else some b)
      none
  (best.getD (INF_SENTINEL, 0)).2

/-- Clamped projection of a point onto a segment (projectToNearestPoint). -/
def projectToNearestPoint (target a b : Position) : Position :=
  let dx := b.1 - a.1
  let dy := b.2 - a.2
  if dx = 0 ∧ dy = 0 then a
  else
    let t := ((target.1 - a.1) * dx + (target.2 - a.2) * dy) / (dx * dx + dy * dy)
    let tClamped := Q.max 0 (Q.min 1 t)
    (a.1 + tClamped * dx, a.2 + tClamped * dy)

/-- Nearest point on a ring boundary together with its squared distance and
segment index (nearestPointOnRingProjected). -/
def nearestPointOnRingProjected (px py : Q) (ring : LinearRing) (openCount : Nat) :
    Q × Position × Nat :=
  (((List.range openCount).foldl
    (fun (acc : Option (Q × Position × Nat)) i =>
      let a := ring.getD i (0, 0)
      let b := ring.getD ((i + 1) % openCount) (0, 0)
      let dx := b.1 - a.1
      let dy := b.2 - a.2
      let lenSq := dx * dx + dy * dy
      let proj :=
        if lenSq < TINY_LEN_SQ then a
        else
          let t := Q.max 0 (Q.min 1 (((px - a.1) * dx + (py - a.2) * dy) / lenSq))
          (a.1 + t * dx, a.2 + t * dy)
      let ex := px - proj.1
      let ey := py - proj.2
      let dSq := ex * ex + ey * ey
      match acc with
      | none => some (dSq, proj, i)
      | some best => if dSq < best.1 then some (dSq, proj, i) else some best)
    none)).getD (INF_SENTINEL, (px, py), 0)

/-- JS indexing with a possibly negative index: array[i] is undefined
outside bounds. -/
def listGetI (l : List Position) (i : Int) : Option Position :=
  if i < 0 then none else l[i.toNat]?

/-! ### extractSegmentFromRing -/

/-- Extract ring[s..e], wrapping past the end when e < s
(extractSegmentFromRing; the source also copies each position, which is the
identity here). -/
def extractSegmentFromRing (ring : LinearRing) (startIndex endIndex : Int) :
    List Position :=
  let vertexCount := getOpenVertexCount ring
  if vertexCount < 3 then []
  else if startIndex < 0 ∨ startIndex ≥ vertexCount then []
  else if endIndex < 0 ∨ endIndex ≥ vertexCount then []
  else
    let s := startIndex.toNat
    let e := endIndex.toNat
    let openRing := ring.take vertexCount
    if e ≥ s then (openRing.drop s).take (e - s + 1)
    else openRing.drop s ++ openRing.take (e + 1)

/-! ### Edited vertex range detection -/

/-- Threshold below which a vertex counts as unmoved, 1e-14 deg². -/
def THRESHOLD_DEG_SQ : Q := mkQ 1 (10 ^ 14)

/-- Contiguous range of post-edit vertex indices that moved
(findEditedVertexRange).  Index-by-index when counts match, geometric
distance to the pre-edit ring otherwise. -/
def findEditedVertexRange (preEditRing : LinearRing) (preEditOpenCount : Nat)
    (postEditRing : LinearRing) (postEditOpenCount : Nat) : Option (Nat × Nat) :=
  if preEditOpenCount = postEditOpenCount then
    (List.range postEditOpenCount).foldl
      (fun (acc : Option (Nat × Nat)) i =>
        let p := preEditRing.getD i (0, 0)
        let q := postEditRing.getD i (0, 0)
        let dx := p.1 - q.1
        let dy := p.2 - q.2
        if Q.gt (dx * dx + dy * dy) THRESHOLD_DEG_SQ then
          match acc with
          | none => some (i, i)
          | some r => some (r.1, i)
        else acc)
      none
  else
    (List.range postEditOpenCount).foldl
      (fun (acc : Option (Nat × Nat)) i =>
        let q := postEditRing.getD i (0, 0)
        let dSq := (pointToRingDistDegSqWithIndex q.1 q.2 preEditRing preEditOpenCount).1
        if Q.gt dSq THRESHOLD_DEG_SQ then
          match acc with
          | none => some (i, i)
          | some r => some (r.1, i)
        else acc)
      none

/-! ### Geometric shared boundary detection -/

/-- A shared boundary segment between the edited ring A and a neighbour
ring B (SharedBoundarySegment). -/
structure SharedBoundarySegment where
  aStartIndex : Nat
  aEndIndex : Nat
  bStartIndex : Nat
  bEndIndex : Nat
  isReversed : Bool
  sharedVertexCount : Nat
deriving DecidableEq, Repr

/-- Group the indices below n whose mask is true into maximal runs of
consecutive indices, in order (phase 2 of findSharedBoundaryGeometric). -/
def groupSharedRuns (mask : Nat → Bool) (n : Nat) : List (Nat × Nat) :=
  let st :=
    (List.range n).foldl
      (fun (st : Option Nat × List (Nat × Nat)) i =>
        match st.1 with
        | none => if mask i then (some i, st.2) else (none, st.2)
        | some s => if mask i then (some s, st.2) else (none, st.2 ++ [(s, i - 1)]))
      (none, [])
  match st.1 with
  | none => st.2
  | some s => st.2 ++ [(s, n - 1)]

/-- Merge the first and last runs when they connect through vertex 0, which
the source encodes as bStart > bEnd (wrap-around). -/
def mergeWrapAround (segs : List (Nat × Nat)) (bOpenCount : Nat) :
    List (Nat × Nat) :=
  if segs.length ≥ 2 then
    let first := segs.headD (0, 0)
    let last := segs.getLastD (0, 0)
    if first.1 = 0 ∧ last.2 = bOpenCount - 1 then
      (segs.drop 1).dropLast ++ [(last.1, first.2)]
    else segs
  else segs

/-- The ordered list of B indices covered by a raw segment, handling
wrap-around. -/
def segmentBIndices (raw : Nat × Nat) (bOpenCount : Nat) : List Nat :=
  if raw.2 ≥ raw.1 then
    (List.range (raw.2 - raw.1 + 1)).map (· + raw.1)
  else
    (List.range (bOpenCount - raw.1)).map (· + raw.1) ++ List.range (raw.2 + 1)

/-- Winding vote of phase 3: sample projected A-edge indices along the B
walk and count whether they tend to increase or decrease mod aOpenCount. -/
def windingIsReversed (bIndices : List Nat) (bProjSegIndex : Nat → Nat)
    (aOpenCount : Nat) : Bool :=
  let len := bIndices.length
  let sampleStep := Nat.max 1 (len / 20)
  let votes :=
    (List.range ((len - 1) / sampleStep)).foldl
      (fun (votes : Nat × Nat) k =>
        let s := k * sampleStep
        let curr : Int := bProjSegIndex (bIndices.getD s 0)
        let next : Int := bProjSegIndex (bIndices.getD (s + sampleStep) 0)
        let fwd := (next - curr).emod aOpenCount
        let rev := (curr - next).emod aOpenCount
        if fwd < rev then (votes.1 + 1, votes.2)
        else if rev < fwd then (votes.1, votes.2 + 1)
        else votes)
      (0, 0)
  votes.2 > votes.1

/-- Find shared boundary segments between two rings by geometric proximity
(findSharedBoundaryGeometric). -/
def findSharedBoundaryGeometric (ringA : LinearRing) (aOpenCount : Nat)
    (ringB : LinearRing) (bOpenCount : Nat) : List SharedBoundarySegment :=
  if aOpenCount < 3 ∨ bOpenCount < 3 then []
  else
    let bData :=
      (List.range bOpenCount).map fun i =>
        let v := ringB.getD i (0, 0)
        let r := pointToRingDistDegSqWithIndex v.1 v.2 ringA aOpenCount
        (decide (r.1 < GEOMETRIC_TOLERANCE_DEG_SQ), r.2)
    let bSharedMask : Nat → Bool := fun i => (bData.getD i (false, 0)).1
    let bProjSegIndex : Nat → Nat := fun i => (bData.getD i (false, 0)).2
    let rawSegments := mergeWrapAround (groupSharedRuns bSharedMask bOpenCount) bOpenCount
    rawSegments.filterMap fun raw =>
      let sharedCount :=
        if raw.2 ≥ raw.1 then raw.2 - raw.1 + 1
        else (bOpenCount - raw.1) + (raw.2 + 1)
      if sharedCount < MIN_SHARED_VERTICES then none
      else
        let bStartV := ringB.getD raw.1 (0, 0)
        let bEndV := ringB.getD raw.2 (0, 0)
        let aStartIdx := findNearestVertexIndex bStartV.1 bStartV.2 ringA aOpenCount
        let aEndIdx := findNearestVertexIndex bEndV.1 bEndV.2 ringA aOpenCount
        if aStartIdx = aEndIdx then none
        else
          let bIndices := segmentBIndices raw bOpenCount
          some
            { aStartIndex := aStartIdx
              aEndIndex := aEndIdx
              bStartIndex := raw.1
              bEndIndex := raw.2
              isReversed := windingIsReversed bIndices bProjSegIndex aOpenCount
              sharedVertexCount := sharedCount }

/-! ### findAdjacentPatches -/

/-- A shared segment between an edited ring and a neighbour patch ring
(AdjacentPatchInfo).  The four vertex indices are JS numbers and may be
driven negative by callers, hence Int. -/
structure AdjacentPatchInfo where
  patchId : String
  patchCode : String
  startIndex : Int
  endIndex : Int
  ringIndex : Nat
  polygonIndex : Nat
  editedStartIndex : Int
  editedEndIndex : Int
  editedRingIndex : Nat
  editedPolygonIndex : Nat
  matchedVertexCount : Nat
  isReversed : Bool
deriving DecidableEq, Repr

instance : Inhabited AdjacentPatchInfo :=
  ⟨⟨"", "", 0, 0, 0, 0, 0, 0, 0, 0, 0, false⟩⟩

/-- All shared segments between the edited ring and every ring of every
other patch, with a padded-bbox pre-filter (findAdjacentPatches). -/
def findAdjacentPatches (editedPatchId : String) (editedRing : LinearRing)
    (allPatches : List PatchFeature) (editedPolygonIndex : Nat := 0)
    (editedRingIndex : Nat := 0) : List AdjacentPatchInfo :=
  let editedOpenCount := getOpenVertexCount editedRing
  if editedOpenCount < 3 then []
  else
    let editedBBox := getRingBBox editedRing
    allPatches.foldl
      (fun acc patch =>
        if patch.id = editedPatchId then acc
        else
          match patch.geometry with
          | none => acc
          | some geometry =>
            let geom := geometry.toMP
            acc ++
              geom.enum.flatMap (fun pi_polygon =>
                pi_polygon.2.enum.flatMap (fun ri_ring =>
                  let ring := ri_ring.2
                  let ringOpenCount := getOpenVertexCount ring
                  if ringOpenCount < 3 then []
                  else if ¬ bboxesOverlap editedBBox (getRingBBox ring) BBOX_PAD_DEG then []
                  else
                    (findSharedBoundaryGeometric editedRing editedOpenCount ring
                        ringOpenCount).map fun seg =>
                      { patchId := patch.id
                        patchCode := patch.code
                        startIndex := seg.bStartIndex
                        endIndex := seg.bEndIndex
                        ringIndex := ri_ring.1
                        polygonIndex := pi_polygon.1
                        editedStartIndex := seg.aStartIndex
                        editedEndIndex := seg.aEndIndex
                        editedRingIndex := editedRingIndex
                        editedPolygonIndex := editedPolygonIndex
                        matchedVertexCount := seg.sharedVertexCount
                        isReversed := seg.isReversed })))
      []

/-! ### The external geometry library (the @turf/turf dependency)

Modelled from the spec: the repository imports intersect, difference and
area from @turf/turf, whose source is not part of the repository.  The spec
describes them as the set-theoretic polygon operations returning a Polygon
or MultiPolygon feature or null, with area in square metres, and the engine
catches the exceptions they may raise.  They are therefore abstracted as an
oracle structure; concrete theorems instantiate it with the exact planar
rectangle library defined later in this file. -/

/-- A polygonal feature as returned by the library: turf returns either a
Polygon or a MultiPolygon feature. -/
inductive GapShape
  | poly (coords : PolygonCoords)
  | multi (coords : MultiPolygonCoords)
deriving DecidableEq, Repr

/-- View any geometry as a library feature. -/
def Geom.toShape : Geom → GapShape
  | .polygon coords => .poly coords
  | .multiPolygon coords => .multi coords

/-- The component polygons of a library feature, exactly as the source
unpacks them (Polygon contributes itself, MultiPolygon its members). -/
def GapShape.components : GapShape → List PolygonCoords
  | .poly coords => [coords]
  | .multi coords => coords

deriving instance DecidableEq for Except

/-- Oracle for the three @turf/turf operations the analyser uses.  An
error value models the exceptions the source catches. -/
structure GeoLib where
  intersect : GapShape → GapShape → Except Unit (Option GapShape)
  difference : GapShape → GapShape → Except Unit (Option GapShape)
  area : GapShape → Q

/-! ### Post-edit analysis -/

/-- Optional ring of a MultiPolygon at polygon and ring index
(the source's coordinates[pi]?.[ri] access). -/
def ringAt (g : MultiPolygonCoords) (pi ri : Nat) : Option LinearRing :=
  g[pi]?.bind fun poly => poly[ri]?

/-- Relationship classification of a neighbour. -/
inductive Relationship
  | gap
  | overlap
  | aligned
deriving DecidableEq, Repr

/-- Classify the relationship between the edited patch and a neighbour by
intersection area (classifyNeighbourRelationship).  A library failure is
caught and classified as aligned. -/
def classifyNeighbourRelationship (lib : GeoLib)
    (editedGeometry neighbourGeometry : MultiPolygonCoords) : Relationship :=
  match lib.intersect (.multi editedGeometry) (.multi neighbourGeometry) with
  | .error _ => .aligned
  | .ok none => .aligned
  | .ok (some overlap) =>
    if Q.gt (lib.area overlap) 100 then .overlap else .aligned

/-- Duplicate test: the intersection covers more than 95% of the smaller
geometry (isDuplicateGeometry).  Zero areas and failures are not
duplicates. -/
def isDuplicateGeometry (lib : GeoLib) (geomA geomB : MultiPolygonCoords) : Bool :=
  let areaA := lib.area (.multi geomA)
  let areaB := lib.area (.multi geomB)
  if areaA = 0 ∨ areaB = 0 then false
  else
    match lib.intersect (.multi geomA) (.multi geomB) with
    | .error _ => false
    | .ok none => false
    | .ok (some overlap) =>
      decide (Q.gt (lib.area overlap / Q.min areaA areaB) (mkQ 95 100))

/-- The cleanup filter of detectGap: keep a component polygon unless it is
smaller than 100 m² or some occupied patch overlaps it by more than
100 m²; a failing intersection is ignored and the remaining patches are
still checked. -/
def gapComponentKeep (lib : GeoLib) (occupiedPatches : List PatchFeature)
    (coords : PolygonCoords) : Bool :=
  if lib.area (.poly coords) < 100 then false
  else
    occupiedPatches.all fun patch =>
      match patch.geometry with
      | none => true
      | some geometry =>
        match lib.intersect (.poly coords) geometry.toShape with
        | .error _ => true
        | .ok none => true
        | .ok (some overlap) => decide (¬ Q.gt (lib.area overlap) 100)

/-- Gap detection (detectGap): difference of old minus new, minus every
occupied patch, then a defensive cleanup dropping components that are
smaller than 100 m² or still overlap an occupied patch by more than
100 m².  Inner library failures are caught per operation; a failure of the
initial difference aborts with null. -/
def detectGap (lib : GeoLib) (oldGeometry newGeometry : MultiPolygonCoords)
    (occupiedPatches : List PatchFeature) : Option GapShape :=
  match lib.difference (.multi oldGeometry) (.multi newGeometry) with
  | .error _ => none
  | .ok none => none
  | .ok (some lost) =>
    let gap :=
      occupiedPatches.foldl
        (fun (gap : Option GapShape) patch =>
          match gap, patch.geometry with
          | none, _ => none
          | some g, none => some g
          | some g, some geometry =>
            match lib.difference g geometry.toShape with
            | .error _ => some g
            | .ok r => r)
        (some lost)
    match gap with
    | none => none
    | some g =>
      let cleanCoordinates := g.components.filter (gapComponentKeep lib occupiedPatches)
      match cleanCoordinates with
      | [] => none
      | [c] => some (.poly c)
      | cs => some (.multi cs)

/-- A neighbour entry of the analysis (NeighbourInfo). -/
structure NeighbourInfo where
  patchId : String
  patchCode : String
  relationship : Relationship
  isDuplicate : Bool
  adjacentInfo : AdjacentPatchInfo
deriving DecidableEq, Repr

/-- The result of analysePostEdit (PostEditAnalysis). -/
structure PostEditAnalysis where
  duplicates : List NeighbourInfo
  neighbours : List NeighbourInfo
  gapGeometry : Option GapShape
  gapAreaSqm : Q
deriving DecidableEq, Repr

/-- Step 2 of analysePostEdit: remap the edited indices of a candidate from
the old ring to nearest-vertex indices on the new ring. -/
def remapCandidate (oldGeometry newGeometry : MultiPolygonCoords)
    (c : AdjacentPatchInfo) : AdjacentPatchInfo :=
  match ringAt oldGeometry c.editedPolygonIndex c.editedRingIndex,
      ringAt newGeometry c.editedPolygonIndex c.editedRingIndex with
  | some oldRing, some newRing =>
    let newOpenCount := getOpenVertexCount newRing
    if newOpenCount < 3 then c
    else
      match listGetI oldRing c.editedStartIndex, listGetI oldRing c.editedEndIndex with
      | some oldStart, some oldEnd =>
        { c with
          editedStartIndex := findNearestVertexIndex oldStart.1 oldStart.2 newRing newOpenCount
          editedEndIndex := findNearestVertexIndex oldEnd.1 oldEnd.2 newRing newOpenCount }
      | _, _ => c
  | _, _ => c

/-- Anchor vertices kept on each side when narrowing to the edited zone. -/
def EDIT_BUFFER : Nat := 3

/-- Step 3 of analysePostEdit: narrow a candidate's shared range to the
section the user actually moved, keeping the candidate untouched on any
failure. -/
def narrowCandidate (preEditSimplifiedGeometry newGeometry : MultiPolygonCoords)
    (allPatches : List PatchFeature) (c : AdjacentPatchInfo) : AdjacentPatchInfo :=
  match ringAt preEditSimplifiedGeometry c.editedPolygonIndex c.editedRingIndex,
      ringAt newGeometry c.editedPolygonIndex c.editedRingIndex with
  | some preEditRing, some postEditRing =>
    let preEditOpenCount := getOpenVertexCount preEditRing
    let postEditOpenCount := getOpenVertexCount postEditRing
    if preEditOpenCount < 3 ∨ postEditOpenCount < 3 then c
    else
      match findEditedVertexRange preEditRing preEditOpenCount postEditRing
          postEditOpenCount with
      | none => c
      | some editedRange =>
        let buffStart : Nat := editedRange.1 - EDIT_BUFFER
        let buffEnd : Nat := Nat.min (postEditOpenCount - 1) (editedRange.2 + EDIT_BUFFER)
        let sharedStart := c.editedStartIndex
        let sharedEnd := c.editedEndIndex
        let intStart : Int := max (buffStart : Int) (min sharedStart sharedEnd)
        let intEnd : Int := min (buffEnd : Int) (max sharedStart sharedEnd)
        if intStart > intEnd then c
        else
          let c1 := { c with editedStartIndex := intStart, editedEndIndex := intEnd }
          match allPatches.find? fun p => p.id = c.patchId with
          | none => c1
          | some neighbourPatch =>
            match neighbourPatch.geometry with
            | none => c1
            | some nGeom =>
              match ringAt nGeom.toMP c.polygonIndex c.ringIndex with
              | none => c1
              | some neighbourRing =>
                let nOpenCount := getOpenVertexCount neighbourRing
                if nOpenCount < 3 then c1
                else
                  let ps := (listGetI postEditRing intStart).getD (0, 0)
                  let pe := (listGetI postEditRing intEnd).getD (0, 0)
                  { c1 with
                    startIndex := findNearestVertexIndex ps.1 ps.2 neighbourRing nOpenCount
                    endIndex := findNearestVertexIndex pe.1 pe.2 neighbourRing nOpenCount }
  | _, _ => c

/-- Step 4 of analysePostEdit: keep the strongest adjacency per neighbour
patch id, preserving first-insertion order exactly like the JS Map. -/
def dedupStrongest (candidates : List AdjacentPatchInfo) : List AdjacentPatchInfo :=
  candidates.foldl
    (fun acc c =>
      match acc.findIdx? (fun e => e.patchId = c.patchId) with
      | some i =>
        if c.matchedVertexCount > (acc.getD i default).matchedVertexCount
        then acc.set i c else acc
      | none => acc ++ [c])
    []

/-- The placeholder adjacency record the source attaches to duplicates that
were not found through boundary adjacency. -/
def placeholderAdjacency (patch : PatchFeature) : AdjacentPatchInfo :=
  { patchId := patch.id
    patchCode := patch.code
    startIndex := 0
    endIndex := 0
    ringIndex := 0
    polygonIndex := 0
    editedStartIndex := 0
    editedEndIndex := 0
    editedRingIndex := 0
    editedPolygonIndex := 0
    matchedVertexCount := 0
    isReversed := false }

/-- Step 1 of analysePostEdit: adjacency candidates from every ring of the
old geometry. -/
def adjacencyCandidates (editedPatchId : String) (oldGeometry : MultiPolygonCoords)
    (allPatches : List PatchFeature) : List AdjacentPatchInfo :=
  oldGeometry.enum.flatMap fun pi_polygon =>
    pi_polygon.2.enum.flatMap fun ri_ring =>
      findAdjacentPatches editedPatchId ri_ring.2 allPatches pi_polygon.1 ri_ring.1

/-- Step 5 of analysePostEdit: ids of all patches whose geometry duplicates
the old geometry (the duplicateIds set; only membership is used). -/
def duplicateIdsOf (lib : GeoLib) (editedPatchId : String)
    (oldGeometry : MultiPolygonCoords) (allPatches : List PatchFeature) : List String :=
  allPatches.filterMap fun patch =>
    if patch.id = editedPatchId then none
    else
      match patch.geometry with
      | none => none
      | some geometry =>
        if isDuplicateGeometry lib oldGeometry geometry.toMP then some patch.id
        else none

/-- The membership test of the duplicate scan, per patch: not the edited
patch, has a geometry, and that geometry duplicates the old geometry. -/
def isPreExistingDuplicate (lib : GeoLib) (editedPatchId : String)
    (oldGeometry : MultiPolygonCoords) (p : PatchFeature) : Bool :=
  decide (p.id ≠ editedPatchId) &&
    (match p.geometry with
     | none => false
     | some geometry => isDuplicateGeometry lib oldGeometry geometry.toMP)

/-- Step 6 of analysePostEdit: turn the surviving adjacency records into
NeighbourInfo entries, classifying each against the new geometry.  A null
patch geometry here would crash the source (it reads .type of null); that
is unreachable when patch ids are unique, and such entries are dropped. -/
def mapPhaseNeighbours (lib : GeoLib) (newGeometry : MultiPolygonCoords)
    (allPatches : List PatchFeature) (duplicateIds : List String)
    (adjacentPatches : List AdjacentPatchInfo) : List NeighbourInfo :=
  adjacentPatches.filterMap fun adj =>
    match allPatches.find? (fun p => p.id = adj.patchId) with
    | none => none
    | some neighbour =>
      match neighbour.geometry with
      | none => none
      | some nGeometry =>
        let isDupe := duplicateIds.contains adj.patchId
        let relationship :=
          if isDupe then Relationship.overlap
          else classifyNeighbourRelationship lib newGeometry nGeometry.toMP
        some
          { patchId := adj.patchId
            patchCode := adj.patchCode
            relationship := relationship
            isDuplicate := isDupe
            adjacentInfo := adj }

/-- The entry the add-loop of analysePostEdit pushes for a duplicate that
boundary adjacency did not find. -/
def duplicateEntry (patch : PatchFeature) : NeighbourInfo :=
  { patchId := patch.id
    patchCode := patch.code
    relationship := Relationship.overlap
    isDuplicate := true
    adjacentInfo := placeholderAdjacency patch }

/-- One iteration of the add-loop of analysePostEdit. -/
def addDuplicateStep (editedPatchId : String) (duplicateIds : List String)
    (acc : List NeighbourInfo) (patch : PatchFeature) : List NeighbourInfo :=
  if patch.id = editedPatchId then acc
  else if ¬ duplicateIds.contains patch.id then acc
  else if acc.any (fun n => n.patchId = patch.id) then acc
  else acc ++ [duplicateEntry patch]

/-- The add-loop of analysePostEdit: append every duplicate patch that is
not yet represented among the neighbours. -/
def addMissingDuplicates (editedPatchId : String) (allPatches : List PatchFeature)
    (duplicateIds : List String) (initial : List NeighbourInfo) : List NeighbourInfo :=
  allPatches.foldl (addDuplicateStep editedPatchId duplicateIds) initial

/-- Analyse the result of a boundary edit (analysePostEdit): adjacency from
the old geometry, index remap to the new ring, optional narrowing,
strongest match per neighbour, duplicate scan, relationship classification,
and gap detection. -/
def analysePostEdit (lib : GeoLib) (editedPatchId : String)
    (oldGeometry newGeometry : MultiPolygonCoords)
    (allPatches : List PatchFeature)
    (preEditSimplifiedGeometry : Option MultiPolygonCoords) : PostEditAnalysis :=
  let adjacentCandidates :=
    (adjacencyCandidates editedPatchId oldGeometry allPatches).map
      (remapCandidate oldGeometry newGeometry)
  let adjacentCandidates :=
    match preEditSimplifiedGeometry with
    | none => adjacentCandidates
    | some pre => adjacentCandidates.map (narrowCandidate pre newGeometry allPatches)
  let adjacentPatches := dedupStrongest adjacentCandidates
  let duplicateIds := duplicateIdsOf lib editedPatchId oldGeometry allPatches
  let allNeighbours :=
    addMissingDuplicates editedPatchId allPatches duplicateIds
      (mapPhaseNeighbours lib newGeometry allPatches duplicateIds adjacentPatches)
  let duplicates := allNeighbours.filter fun n => n.isDuplicate
  let neighbours := allNeighbours.filter fun n => ¬ n.isDuplicate
  let occupiedFeatures :=
    allPatches.filter fun p => p.id ≠ editedPatchId ∧ p.geometry.isSome
  let gapGeometry := detectGap lib oldGeometry newGeometry occupiedFeatures
  let gapAreaSqm :=
    match gapGeometry with
    | some g => lib.area g
    | none => 0
  { duplicates := duplicates
    neighbours := neighbours
    gapGeometry := gapGeometry
    gapAreaSqm := gapAreaSqm }

/-! ### Connection-quality assessment -/

/-- Snap quality verdict. -/
inductive SnapQuality
  | good
  | poor
deriving DecidableEq, Repr

/-- Whether the interior angle at b formed with a and c is below 30
degrees.  The source computes acos of the normalised dot product and
compares the angle in degrees with 30; since acos is strictly decreasing,
angle < 30° holds exactly when the dot product is positive and
4·dot² > 3·|ba|²·|bc|², which is the exact form used here.  A zero-length
side yields 180° in the source, hence false here. -/
def angleLt30 (a b c : Position) : Bool :=
  let bax := a.1 - b.1
  let bay := a.2 - b.2
  let bcx := c.1 - b.1
  let bcy := c.2 - b.2
  let dot := bax * bcx + bay * bcy
  let baSq := bax * bax + bay * bay
  let bcSq := bcx * bcx + bcy * bcy
  if baSq = 0 ∨ bcSq = 0 then false
  else decide (Q.gt dot 0) && decide (Q.gt (4 * (dot * dot)) (3 * (baSq * bcSq)))

/-- Assess connection quality at the two splice endpoints
(assessConnectionQuality).  The distance comparison is the external turf
haversine distance compared against 5 metres; modelled from the spec as an
oracle predicate distGt (distance from the first to the second point
exceeds 5 m), since @turf/turf is not part of the repository. -/
def assessConnectionQuality (distGt : Position → Position → Bool)
    (beforePoint : Option Position) (startPoint endPoint : Position)
    (afterPoint : Option Position) : SnapQuality :=
  let startBad :=
    match beforePoint with
    | none => false
    | some bp =>
      let third :=
        if startPoint = endPoint ∧ afterPoint.isSome then afterPoint.getD endPoint
        else endPoint
      angleLt30 bp startPoint third || distGt bp startPoint
  if startBad then .poor
  else
    let endBad :=
      match afterPoint with
      | none => false
      | some ap =>
        let first :=
          if endPoint = startPoint ∧ beforePoint.isSome then beforePoint.getD startPoint
          else startPoint
        angleLt30 first endPoint ap || distGt endPoint ap
    if endBad then .poor else .good

/-! ### Boundary synchronisation by projection -/

/-- Result record of the two synchronisation algorithms; connectionStart
and connectionEnd are the connectionPoints of the source. -/
structure SyncResult where
  geometry : MultiPolygonCoords
  quality : SnapQuality
  changedSegment : List Position
  connectionStart : Position
  connectionEnd : Position
deriving DecidableEq, Repr

/-- Write a ring back at a polygon / ring index of a MultiPolygon (the
in-place mutation of the cloned coordinates array). -/
def setRingAt (g : MultiPolygonCoords) (pi ri : Nat) (r : LinearRing) :
    MultiPolygonCoords :=
  g.set pi ((g.getD pi []).set ri r)

/-- Per-ring vertex counts of a MultiPolygon. -/
def ringShape (g : MultiPolygonCoords) : List (List Nat) :=
  g.map fun poly => poly.map List.length

/-- The ordered open-ring indices of the shared section, wrapping when
endIndex < startIndex. -/
def sharedIndices (s e openCount : Nat) : List Nat :=
  if e ≥ s then (List.range (e - s + 1)).map (· + s)
  else (List.range (openCount - s)).map (· + s) ++ List.range (e + 1)

/-- Nearest point to a vertex over all edges of a polyline, by clamped
projection onto each edge (the inner loop of syncBoundaryByProjection). -/
def projectOntoPolyline (polyline : List Position) (vertex : Position) : Position :=
  let best :=
    (List.range (polyline.length - 1)).foldl
      (fun (acc : Option (Q × Position)) j =>
        let projected :=
          projectToNearestPoint vertex (polyline.getD j (0, 0)) (polyline.getD (j + 1) (0, 0))
        let dx := projected.1 - vertex.1
        let dy := projected.2 - vertex.2
        let dSq := dx * dx + dy * dy
        match acc with
        | none => some (dSq, projected)
        | some b => if dSq < b.1 then some (dSq, projected) else some b)
      none
  (best.getD (INF_SENTINEL, vertex)).2

/-- Sync a neighbour's boundary by projecting each shared-section vertex
onto the nearest edge of the edited polyline (syncBoundaryByProjection). -/
def syncBoundaryByProjection (distGt : Position → Position → Bool)
    (neighbourGeometry : MultiPolygonCoords) (editedPolyline : List Position)
    (adjacentInfo : AdjacentPatchInfo) : SyncResult :=
  let poor : SyncResult := ⟨neighbourGeometry, .poor, [], (0, 0), (0, 0)⟩
  if editedPolyline.length < 2 then poor
  else
    match ringAt neighbourGeometry adjacentInfo.polygonIndex adjacentInfo.ringIndex with
    | none => poor
    | some ring =>
      if ring.length < 4 then poor
      else
        let openCount := getOpenVertexCount ring
        if openCount < 3 then poor
        else if adjacentInfo.startIndex < 0 ∨ adjacentInfo.startIndex ≥ openCount then poor
        else if adjacentInfo.endIndex < 0 ∨ adjacentInfo.endIndex ≥ openCount then poor
        else
          let s := adjacentInfo.startIndex.toNat
          let e := adjacentInfo.endIndex.toNat
          let polyline :=
            if adjacentInfo.isReversed then editedPolyline.reverse else editedPolyline
          let indices := sharedIndices s e openCount
          let projected :=
            indices.foldl
              (fun (st : LinearRing × List Position) idx =>
                let vertex := st.1.getD idx (0, 0)
                let bestPoint := projectOntoPolyline polyline vertex
                (st.1.set idx bestPoint, st.2 ++ [bestPoint]))
              (ring, [])
          let ring2 := projected.1.set (projected.1.length - 1) (projected.1.getD 0 (0, 0))
          let changedSegment := projected.2
          let beforePoint :=
            if s > 0 then ring2.getD (s - 1) (0, 0) else ring2.getD (openCount - 1) (0, 0)
          let afterPoint := ring2.getD ((e + 1) % openCount) (0, 0)
          let segStart := changedSegment.headD (0, 0)
          let segEnd := changedSegment.getLastD (0, 0)
          let quality :=
            assessConnectionQuality distGt (some beforePoint) segStart segEnd (some afterPoint)
          { geometry :=
              setRingAt neighbourGeometry adjacentInfo.polygonIndex adjacentInfo.ringIndex ring2
            quality := quality
            changedSegment := changedSegment
            connectionStart := segStart
            connectionEnd := segEnd }

/-! ### Boundary synchronisation by displacement -/

/-- Result record of syncBoundaryByDisplacement. -/
structure DispResult where
  geometry : MultiPolygonCoords
  quality : SnapQuality
  changedSegment : List Position
  connectionStart : Position
  connectionEnd : Position
  displacedCount : Nat
deriving DecidableEq, Repr

/-- Proximity threshold of the displacement sync, shared with boundary
detection. -/
def PROXIMITY_SQ : Q := GEOMETRIC_TOLERANCE_DEG_SQ

/-- Reject displacements larger than 0.1 deg². -/
def MAX_DISP_SQ : Q := mkQ 1 10

/-- Ignore displacements smaller than 1e-14 deg². -/
def MIN_DISP_SQ : Q := mkQ 1 (10 ^ 14)

/-- The bbox pre-filter pad of the displacement sync: the source computes
Math.sqrt(PROXIMITY_SQ) + 0.0001, and sqrt(4e-8) is exactly 2e-4, so the
pad is exactly 3e-4. -/
def DISP_BBOX_PAD : Q := mkQ 3 10000

/-- Loop state of the displacement pass. -/
structure DispState where
  ring : LinearRing
  changed : List Position
  count : Nat
  first : Option Nat
  last : Option Nat
deriving DecidableEq, Repr

/-- One iteration of the displacement loop over a neighbour-ring vertex. -/
def dispStep (oldEditedRing newEditedRing : LinearRing)
    (oldOpenCount newOpenCount : Nat) (oldBBox : BBox)
    (st : DispState) (idx : Nat) : DispState :=
  let v := st.ring.getD idx (0, 0)
  if v.1 < oldBBox.minX - DISP_BBOX_PAD ∨ v.1 > oldBBox.maxX + DISP_BBOX_PAD ∨
      v.2 < oldBBox.minY - DISP_BBOX_PAD ∨ v.2 > oldBBox.maxY + DISP_BBOX_PAD then st
  else
    let near := nearestPointOnRingProjected v.1 v.2 oldEditedRing oldOpenCount
    if Q.gt near.1 PROXIMITY_SQ then st
    else
      let pOld := near.2.1
      let pNew := (nearestPointOnRingProjected pOld.1 pOld.2 newEditedRing newOpenCount).2.1
      let dx := pNew.1 - pOld.1
      let dy := pNew.2 - pOld.2
      let dispSq := dx * dx + dy * dy
      if Q.gt dispSq MAX_DISP_SQ then st
      else if dispSq < MIN_DISP_SQ then st
      else
        let moved := (v.1 + dx, v.2 + dy)
        { ring := st.ring.set idx moved
          changed := st.changed ++ [moved]
          count := st.count + 1
          first := if st.first.isNone then some idx else st.first
          last := some idx }

/-- Sync a neighbour's boundary by displacement: move every vertex close
to the old edited ring by the old-to-new displacement of its projection
(syncBoundaryByDisplacement). -/
def syncBoundaryByDisplacement (neighbourGeometry : MultiPolygonCoords)
    (oldEditedRing newEditedRing : LinearRing)
    (polygonIndex ringIndex : Nat) : DispResult :=
  let empty : DispResult := ⟨neighbourGeometry, .poor, [], (0, 0), (0, 0), 0⟩
  match ringAt neighbourGeometry polygonIndex ringIndex with
  | none => empty
  | some ring =>
    if ring.length < 4 then empty
    else
      let openCount := getOpenVertexCount ring
      let oldOpenCount := getOpenVertexCount oldEditedRing
      let newOpenCount := getOpenVertexCount newEditedRing
      if oldOpenCount < 3 ∨ newOpenCount < 3 then empty
      else
        let oldBBox := getRingBBox oldEditedRing
        let stF :=
          (List.range openCount).foldl
            (dispStep oldEditedRing newEditedRing oldOpenCount newOpenCount oldBBox)
            ⟨ring, [], 0, none, none⟩
        let ring2 := stF.ring.set (stF.ring.length - 1) (stF.ring.getD 0 (0, 0))
        if stF.count = 0 then empty
        else
          { geometry := setRingAt neighbourGeometry polygonIndex ringIndex ring2
            quality := .good
            changedSegment := stF.changed
            connectionStart := ring2.getD (stF.first.getD 0) (0, 0)
            connectionEnd := ring2.getD (stF.last.getD 0) (0, 0)
            displacedCount := stF.count }

/-! ### Simplifier -/

/-- Modelled from the spec: the repository's simplifyPatch delegates the
per-ring Ramer-Douglas-Peucker pass to the external @turf/turf simplify,
which is not part of the repository.  Following §4.2 of the spec, rdp keeps
the two endpoints, finds the interior point furthest from the chord, and
recurses on both halves when that squared distance exceeds the squared
tolerance; otherwise the run collapses to its endpoints. -/
def rdpFarthest (pts : List Position) : Q × Nat :=
  ((List.range (pts.length - 2)).foldl
    (fun (acc : Option (Q × Nat)) k =>
      let i := k + 1
      let p := pts.getD i (0, 0)
      let d := distSqToSeg p.1 p.2 (pts.headD (0, 0)) (pts.getLastD (0, 0))
      match acc with
      | none => some (d, i)
      | some b => if Q.gt d b.1 then some (d, i) else some b)
    none).getD (0, 1)

/-- The interior split index, clamped into [1, length-2]; the clamp is the
identity because rdpFarthest only produces interior indices, and it makes
termination of the recursion immediate. -/
def rdpSplitIdx (pts : List Position) : Nat :=
  Nat.min (Nat.max (rdpFarthest pts).2 1) (pts.length - 2)

def rdp (sqTol : Q) (pts : List Position) : List Position :=
  if h : pts.length < 3 then pts
  else
    let i := rdpSplitIdx pts
    if Q.gt (rdpFarthest pts).1 sqTol then
      rdp sqTol (pts.take (i + 1)) ++ (rdp sqTol (pts.drop i)).drop 1
    else [pts.headD (0, 0), pts.getLastD (0, 0)]
termination_by pts.length
decreasing_by
  · simp only [List.length_take]
    have h1 : rdpSplitIdx pts ≤ pts.length - 2 := Nat.min_le_right _ _
    omega
  · simp only [List.length_drop]
    have h2 : 1 ≤ rdpSplitIdx pts :=
      Nat.le_min.mpr ⟨Nat.le_max_right _ _, by omega⟩
    omega

/-- Modelled from the spec: one ring of the simplifier.  Per §4.2 the
simplifier never drops a ring below 3 open vertices; when RDP would, the
original ring is returned unchanged. -/
def simplifyRing (tol : Q) (ring : LinearRing) : LinearRing :=
  let simplified := rdp (tol * tol) ring
  if getOpenVertexCount simplified < 3 then ring else simplified

/-- Modelled from the spec: simplifyPatch applies the per-ring simplifier
across the whole MultiPolygon with the user-supplied tolerance. -/
def simplifyPatch (tol : Q) (geometry : MultiPolygonCoords) : MultiPolygonCoords :=
  geometry.map fun poly => poly.map (simplifyRing tol)

/-! ### A concrete geometry library over axis-aligned rectangles

Modelled from the spec: an exact planar instantiation of the @turf/turf
oracle for geometries that are single axis-aligned rectangles (possibly
with collinear extra vertices on their sides).  It is used only to evaluate
the analyser on concrete inputs.  Exceptions of the real library
(which the source catches at every call site) are modelled by the error
value, returned for inputs outside this fragment. -/

/-- An axis-aligned rectangle, x1 < x2 and y1 < y2. -/
structure Rect where
  x1 : Q
  y1 : Q
  x2 : Q
  y2 : Q
deriving DecidableEq, Repr

/-- Metres per degree: planar scale used by the rectangle library's area.
Only comparisons against the 100 m² thresholds matter for the theorems. -/
def METERS_PER_DEG : Q := 111320

/-- Planar area of a rectangle in square metres. -/
def rectArea (r : Rect) : Q :=
  ((r.x2 - r.x1) * (r.y2 - r.y1)) * (METERS_PER_DEG * METERS_PER_DEG)

/-- Twice the signed shoelace area of an open ring, in square degrees. -/
def shoelaceDouble (pts : List Position) : Q :=
  let n := pts.length
  (List.range n).foldl
    (fun acc i =>
      let p := pts.getD i (0, 0)
      let q := pts.getD ((i + 1) % n) (0, 0)
      acc + (p.1 * q.2 - q.1 * p.2))
    0

/-- Parse a ring as an axis-aligned rectangle: every vertex on the bbox
perimeter and enclosed area equal to the bbox area. -/
def parseRect (ring : LinearRing) : Option Rect :=
  let n := getOpenVertexCount ring
  if n < 4 then none
  else
    let pts := ring.take n
    let bb := getRingBBox pts
    if ¬ (bb.minX < bb.maxX ∧ bb.minY < bb.maxY) then none
    else if ¬ pts.all (fun p =>
        decide (p.1 = bb.minX) || decide (p.1 = bb.maxX) ||
        decide (p.2 = bb.minY) || decide (p.2 = bb.maxY)) then none
    else
      let sh := shoelaceDouble pts
      let target := 2 * ((bb.maxX - bb.minX) * (bb.maxY - bb.minY))
      if sh = target ∨ sh = -target then some ⟨bb.minX, bb.minY, bb.maxX, bb.maxY⟩
      else none

/-- Parse a library feature as a single rectangle (no holes). -/
def parseShapeRect : GapShape → Option Rect
  | .poly [ring] => parseRect ring
  | .multi [[ring]] => parseRect ring
  | _ => none

/-- Canonical closed counter-clockwise ring of a rectangle. -/
def polyOfRect (r : Rect) : PolygonCoords :=
  [[(r.x1, r.y1), (r.x2, r.y1), (r.x2, r.y2), (r.x1, r.y2), (r.x1, r.y1)]]

/-- Intersection of rectangles; empty or degenerate (zero-area)
intersections yield none, as turf intersect yields null. -/
def interRect (r s : Rect) : Option Rect :=
  let x1 := Q.max r.x1 s.x1
  let y1 := Q.max r.y1 s.y1
  let x2 := Q.min r.x2 s.x2
  let y2 := Q.min r.y2 s.y2
  if x1 < x2 ∧ y1 < y2 then some ⟨x1, y1, x2, y2⟩ else none

/-- Difference of rectangles for the cases where the result is empty, the
whole minuend, or a single slab; other shapes (L-shaped or split results)
are outside the fragment and reported as a library failure. -/
def rectDiff (r s : Rect) : Except Unit (Option GapShape) :=
  match interRect r s with
  | none => .ok (some (.poly (polyOfRect r)))
  | some _ =>
    if s.x1 ≤ r.x1 ∧ s.y1 ≤ r.y1 ∧ s.x2 ≥ r.x2 ∧ s.y2 ≥ r.y2 then .ok none
    else if s.y1 ≤ r.y1 ∧ s.y2 ≥ r.y2 then
      if s.x1 ≤ r.x1 then .ok (some (.poly (polyOfRect ⟨s.x2, r.y1, r.x2, r.y2⟩)))
      else if s.x2 ≥ r.x2 then .ok (some (.poly (polyOfRect ⟨r.x1, r.y1, s.x1, r.y2⟩)))
      else .error ()
    else if s.x1 ≤ r.x1 ∧ s.x2 ≥ r.x2 then
      if s.y1 ≤ r.y1 then .ok (some (.poly (polyOfRect ⟨r.x1, s.y2, r.x2, r.y2⟩)))
      else if s.y2 ≥ r.y2 then .ok (some (.poly (polyOfRect ⟨r.x1, r.y1, r.x2, s.y1⟩)))
      else .error ()
    else .error ()

/-- The rectangle instantiation of the geometry-library oracle. -/
def rectLib : GeoLib :=
  { intersect := fun a b =>
      match parseShapeRect a, parseShapeRect b with
      | some r, some s => .ok ((interRect r s).map fun t => .poly (polyOfRect t))
      | _, _ => .error ()
    difference := fun a b =>
      match parseShapeRect a, parseShapeRect b with
      | some r, some s => rectDiff r s
      | _, _ => .error ()
    area := fun s =>
      match parseShapeRect s with
      | some r => rectArea r
      | none => 0 }

/-! ### Concrete evaluation inputs

Small patch sets used to evaluate the engine at concrete inputs: two unit
squares of the S1/S2 family sharing the edge x = 2 (with an extra shared
vertex so that the three-vertex minimum of the detector is met), the S2
retraction, a gap-cleanup configuration, a displacement run with a sharp
connection angle, and a pair of rings with unequal vertex density on the
shared edge. -/

/-- Square [0,2]² whose east side carries the extra vertex (2,1). -/
def ringP1 : LinearRing := [(0,0),(2,0),(2,1),(2,2),(0,2),(0,0)]

/-- Square [2,4]×[0,2] whose west side carries the extra vertex (2,1). -/
def ringN1 : LinearRing := [(2,0),(4,0),(4,2),(2,2),(2,1),(2,0)]

def geomP1 : MultiPolygonCoords := [[ringP1]]

def geomN1 : MultiPolygonCoords := [[ringN1]]

def patchesC1 : List PatchFeature :=
  [⟨"P","P", some (.multiPolygon geomP1)⟩, ⟨"N","N", some (.multiPolygon geomN1)⟩]

/-- S2 old edited geometry: the square [0,2]². -/
def oldE2 : MultiPolygonCoords := [[[(0,0),(2,0),(2,2),(0,2),(0,0)]]]

/-- S2 new edited geometry: east side retracted to x = 1.5. -/
def newE2 : MultiPolygonCoords := [[[(0,0),(3/2,0),(3/2,2),(0,2),(0,0)]]]

def patchesC2 : List PatchFeature :=
  [⟨"E","E", some (.multiPolygon oldE2)⟩, ⟨"B","B", some (.multiPolygon geomN1)⟩]

/-- Gap scenario: the old edited geometry [0,2]². -/
def oldE8 : MultiPolygonCoords := [[[(0,0),(2,0),(2,2),(0,2),(0,0)]]]

/-- Gap scenario: retracted to [0,1]×[0,2], so the lost region is
[1,2]×[0,2]. -/
def newE8 : MultiPolygonCoords := [[[(0,0),(1,0),(1,2),(0,2),(0,0)]]]

/-- Side length such that a w8 × w8 square has planar area exactly
100 m²: (111320 · w8)² = 10² = 100. -/
def w8 : Q := mkQ 1 11132

/-- An occupied patch overlapping the corner of the lost region by exactly
100 m²; the corner overlap is outside the rectangle fragment of the
difference oracle, which therefore reports a failure there, exercising the
catch branch of the subtraction loop. -/
def patchC8 : PatchFeature :=
  ⟨"C","C", some (.polygon
    [[(2 - w8, 2 - w8), (4, 2 - w8), (4, 4), (2 - w8, 4), (2 - w8, 2 - w8)]])⟩

/-- Neighbour for the displacement run: vertices 1 and 2 sit on the east
side x = 1 of the old edited square; vertex 0 sits just beyond the moved
boundary so that the connection angle at the first displaced vertex is
sharp (≈ 11°). -/
def geomD3 : MultiPolygonCoords := [[[(121/100, 11/20), (1, 1/2), (1, 3/5), (3, 3/5)]]]

/-- Old edited ring for the displacement run: unit square. -/
def oldR3 : LinearRing := [(0,0),(1,0),(1,1),(0,1),(0,0)]

/-- New edited ring: east side moved to x = 1.2. -/
def newR3 : LinearRing := [(0,0),(6/5,0),(6/5,1),(0,1),(0,0)]

/-- Ring A: square [0,2]² with 3 vertices on the shared east side. -/
def ringA9 : LinearRing := [(0,0),(2,0),(2,1),(2,2),(0,2),(0,0)]

/-- Ring B: square [2,4]×[0,2] with 4 vertices on the shared west side. -/
def ringB9 : LinearRing := [(2,0),(4,0),(4,2),(2,2),(2,4/3),(2,2/3),(2,0)]

def patchesC9 : List PatchFeature :=
  [⟨"A","A", some (.multiPolygon [[ringA9]])⟩, ⟨"B","B", some (.multiPolygon [[ringB9]])⟩]

/-! ## Helper lemmas -/

theorem Q.not_lt {a b : Q} : ¬ a < b ↔ b ≤ a := by
  constructor
  · intro h
    exact Int.not_lt.mp h
  · intro h
    exact Int.not_lt.mpr h

theorem Q.le_of_not_lt {a b : Q} (h : ¬ a < b) : b ≤ a := Q.not_lt.mp h

theorem getOpenVertexCount_le_length (ring : LinearRing) :
    getOpenVertexCount ring ≤ ring.length := by
  simp only [getOpenVertexCount]
  split
  · omega
  · split <;> omega

theorem ringAt_map (f : LinearRing → LinearRing) (g : MultiPolygonCoords)
    (pi ri : Nat) :
    ringAt (g.map fun poly => poly.map f) pi ri = (ringAt g pi ri).map f := by
  simp only [ringAt, List.getElem?_map]
  cases g[pi]? with
  | none => rfl
  | some poly => simp [List.getElem?_map]

/-! ## C7: extractSegmentFromRing -/

/-- C7: for a ring with open count n ≥ 3 and indices s, e in [0, n),
extractSegmentFromRing returns ring[s..e] of length e − s + 1 when e ≥ s,
and ring[s..n−1] followed by ring[0..e] of length (n − s) + e + 1 when
e < s; every element k of the result is the open-ring vertex at index
(s + k) mod n.  In particular the segment from s to s has length 1. -/
theorem extractSegmentFromRing_spec (ring : LinearRing) (s e : Nat)
    (hn : 3 ≤ getOpenVertexCount ring) (hs : s < getOpenVertexCount ring)
    (he : e < getOpenVertexCount ring) :
    ((e ≥ s →
      (extractSegmentFromRing ring (s : Int) (e : Int)).length = e - s + 1) ∧
     (e < s →
      (extractSegmentFromRing ring (s : Int) (e : Int)).length =
        (getOpenVertexCount ring - s) + e + 1)) ∧
    (∀ k, k < (extractSegmentFromRing ring (s : Int) (e : Int)).length →
      (extractSegmentFromRing ring (s : Int) (e : Int))[k]? =
        (ring.take (getOpenVertexCount ring))[(s + k) % getOpenVertexCount ring]?) := by
  have hlen := getOpenVertexCount_le_length ring
  set n := getOpenVertexCount ring with hn_def
  have hseg : extractSegmentFromRing ring (s : Int) (e : Int) =
      if e ≥ s then ((ring.take n).drop s).take (e - s + 1)
      else (ring.take n).drop s ++ (ring.take n).take (e + 1) := by
    unfold extractSegmentFromRing
    rw [if_neg (by omega), if_neg (by push_cast; omega), if_neg (by push_cast; omega)]
    simp only [Int.toNat_natCast, ← hn_def]
  have htakelen : (ring.take n).length = n := by
    simp [List.length_take]
    omega
  rw [hseg]
  by_cases hcase : e ≥ s
  · rw [if_pos hcase]
    have hlen2 : (((ring.take n).drop s).take (e - s + 1)).length = e - s + 1 := by
      simp only [List.length_take, List.length_drop]
      omega
    refine ⟨⟨fun _ => hlen2, fun hlt => absurd hcase (by omega)⟩, ?_⟩
    intro k hk
    rw [hlen2] at hk
    rw [List.getElem?_take_of_lt hk, List.getElem?_drop,
      Nat.mod_eq_of_lt (show s + k < n by omega)]
  · rw [if_neg hcase]
    have hlen2 : ((ring.take n).drop s ++ (ring.take n).take (e + 1)).length =
        (n - s) + e + 1 := by
      simp only [List.length_append, List.length_take, List.length_drop]
      omega
    refine ⟨⟨fun hge => absurd hge hcase, fun _ => hlen2⟩, ?_⟩
    intro k hk
    rw [hlen2] at hk
    by_cases hk2 : k < n - s
    · rw [List.getElem?_append_left (by rw [List.length_drop, htakelen]; omega),
        List.getElem?_drop, Nat.mod_eq_of_lt (show s + k < n by omega)]
    · rw [List.getElem?_append_right (by rw [List.length_drop, htakelen]; omega)]
      simp only [List.length_drop, htakelen]
      rw [List.getElem?_take_of_lt (by omega),
        Nat.mod_eq_sub_mod (show n ≤ s + k by omega),
        Nat.mod_eq_of_lt (show s + k - n < n by omega)]
      congr 1
      omega

/-- C7 witness: concrete wrap-around instance on a square ring with
n = 4, s = 3, e = 1. -/
theorem extractSegmentFromRing_spec_witness :
    (extractSegmentFromRing [(0,0),(1,0),(1,1),(0,1),(0,0)] (3 : Int) (1 : Int)).length =
      (getOpenVertexCount [(0,0),(1,0),(1,1),(0,1),(0,0)] - 3) + 1 + 1 :=
  (extractSegmentFromRing_spec [(0,0),(1,0),(1,1),(0,1),(0,0)] 3 1
    (by decide) (by decide) (by decide)).1.2 (by decide)

/-! ## C6: the simplifier never drops a ring below 3 open vertices -/

/-- C6: for every MultiPolygon and tolerance, each ring of the simplified
result either is the RDP output with at least 3 open vertices, or — when
RDP would reduce the ring below 3 open vertices — is the original ring
unchanged; in particular rings that start with at least 3 open vertices
never drop below 3.  (The RDP pass itself is modelled from the spec:
the repository delegates it to the external @turf/turf simplify.) -/
theorem simplifyPatch_min_ring (tol : Q) (g : MultiPolygonCoords) (pi ri : Nat)
    (r : LinearRing) (hr : ringAt g pi ri = some r) :
    ∃ r2, ringAt (simplifyPatch tol g) pi ri = some r2 ∧
      (getOpenVertexCount (rdp (tol * tol) r) < 3 → r2 = r) ∧
      (3 ≤ getOpenVertexCount r → 3 ≤ getOpenVertexCount r2) := by
  refine ⟨simplifyRing tol r, ?_, ?_, ?_⟩
  · unfold simplifyPatch
    rw [ringAt_map, hr]
    rfl
  · intro hdrop
    simp only [simplifyRing]
    rw [if_pos hdrop]
  · intro hok
    simp only [simplifyRing]
    split
    · exact hok
    · omega

/-- C6 witness: a square carrying a collinear vertex on its bottom edge;
RDP at tolerance 0.1 removes the collinear vertex and the result keeps 4 ≥
3 open vertices. -/
theorem simplifyPatch_min_ring_witness :
    ∃ r2, ringAt (simplifyPatch (mkQ 1 10) [[[(0,0),(1,0),(2,0),(2,2),(0,2),(0,0)]]]) 0 0 =
        some r2 ∧
      (getOpenVertexCount (rdp (mkQ 1 10 * mkQ 1 10) [(0,0),(1,0),(2,0),(2,2),(0,2),(0,0)]) < 3 →
        r2 = [(0,0),(1,0),(2,0),(2,2),(0,2),(0,0)]) ∧
      (3 ≤ getOpenVertexCount [(0,0),(1,0),(2,0),(2,2),(0,2),(0,0)] →
        3 ≤ getOpenVertexCount r2) :=
  simplifyPatch_min_ring (mkQ 1 10) [[[(0,0),(1,0),(2,0),(2,2),(0,2),(0,0)]]] 0 0
    [(0,0),(1,0),(2,0),(2,2),(0,2),(0,0)] rfl

/-! ## Shape lemmas about the synchronisers -/

theorem list_set_self {α} (l : List α) (i : Nat) (a : α) (h : l[i]? = some a) :
    l.set i a = l := by
  apply List.ext_getElem?
  intro j
  by_cases hj : i = j
  · subst hj
    have hi : i < l.length := by
      by_contra hi
      rw [List.getElem?_eq_none (by omega)] at h
      exact Option.noConfusion h
    rw [List.getElem?_set_self hi, h]
  · rw [List.getElem?_set_ne hj]

theorem ringAt_some_bounds {g : MultiPolygonCoords} {pi ri : Nat} {r : LinearRing}
    (h : ringAt g pi ri = some r) :
    ∃ poly, g[pi]? = some poly ∧ poly[ri]? = some r := by
  unfold ringAt at h
  cases hp : g[pi]? with
  | none => rw [hp] at h; exact Option.noConfusion h
  | some poly =>
    rw [hp] at h
    exact ⟨poly, rfl, h⟩

theorem ringAt_setRingAt {g : MultiPolygonCoords} {pi ri : Nat} {r : LinearRing}
    (r2 : LinearRing) (h : ringAt g pi ri = some r) :
    ringAt (setRingAt g pi ri r2) pi ri = some r2 := by
  obtain ⟨poly, hp, hr⟩ := ringAt_some_bounds h
  have hpl : pi < g.length := by
    by_contra hb
    rw [List.getElem?_eq_none (by omega)] at hp
    exact Option.noConfusion hp
  have hrl : ri < poly.length := by
    by_contra hb
    rw [List.getElem?_eq_none (by omega)] at hr
    exact Option.noConfusion hr
  unfold setRingAt ringAt
  have hgetd : g.getD pi [] = poly := by
    rw [List.getD_eq_getElem?_getD, hp]
    rfl
  rw [hgetd, List.getElem?_set_self hpl]
  show (poly.set ri r2)[ri]? = some r2
  rw [List.getElem?_set_self hrl]

theorem ringShape_set {g : MultiPolygonCoords} {pi ri : Nat} {r : LinearRing}
    (r2 : LinearRing) (h : ringAt g pi ri = some r) (hl : r2.length = r.length) :
    ringShape (setRingAt g pi ri r2) = ringShape g := by
  obtain ⟨poly, hp, hr⟩ := ringAt_some_bounds h
  have hgetd : g.getD pi [] = poly := by
    rw [List.getD_eq_getElem?_getD, hp]
    rfl
  unfold setRingAt ringShape
  rw [hgetd, List.map_set, List.map_set, hl]
  have h1 : (poly.map List.length).set ri r.length = poly.map List.length := by
    apply list_set_self
    rw [List.getElem?_map, hr]
    rfl
  rw [h1]
  apply list_set_self
  rw [List.getElem?_map, hp]
  rfl

theorem projFold_length (polyline : List Position) (idxs : List Nat) :
    ∀ st : LinearRing × List Position,
      ((idxs.foldl
        (fun (st : LinearRing × List Position) idx =>
          let vertex := st.1.getD idx (0, 0)
          let bestPoint := projectOntoPolyline polyline vertex
          (st.1.set idx bestPoint, st.2 ++ [bestPoint]))
        st).1).length = st.1.length := by
  induction idxs with
  | nil => intro st; rfl
  | cons i rest ih =>
    intro st
    rw [List.foldl_cons, ih]
    exact List.length_set _ _ _

theorem dispStep_ring_length (oldR newR : LinearRing) (oo no : Nat) (bb : BBox)
    (st : DispState) (i : Nat) :
    ((dispStep oldR newR oo no bb st i).ring).length = st.ring.length := by
  simp only [dispStep]
  split
  · rfl
  · split
    · rfl
    · split
      · rfl
      · split
        · rfl
        · exact List.length_set _ _ _

theorem dispFold_length (oldR newR : LinearRing) (oo no : Nat) (bb : BBox)
    (idxs : List Nat) :
    ∀ st : DispState,
      ((idxs.foldl (dispStep oldR newR oo no bb) st).ring).length = st.ring.length := by
  induction idxs with
  | nil => intro st; rfl
  | cons i rest ih =>
    intro st
    rw [List.foldl_cons, ih]
    exact dispStep_ring_length oldR newR oo no bb st i

theorem projFold_length_start (polyline : List Position) (idxs : List Nat)
    (r0 : LinearRing) (cs : List Position) :
    ((idxs.foldl
      (fun (st : LinearRing × List Position) idx =>
        let vertex := st.1.getD idx (0, 0)
        let bestPoint := projectOntoPolyline polyline vertex
        (st.1.set idx bestPoint, st.2 ++ [bestPoint]))
      (r0, cs)).1).length = r0.length :=
  projFold_length polyline idxs (r0, cs)

theorem dispFold_length_start (oldR newR : LinearRing) (oo no : Nat) (bb : BBox)
    (idxs : List Nat) (r0 : LinearRing) (cs : List Position) (cnt : Nat)
    (f l : Option Nat) :
    ((idxs.foldl (dispStep oldR newR oo no bb) ⟨r0, cs, cnt, f, l⟩).ring).length =
      r0.length :=
  dispFold_length oldR newR oo no bb idxs ⟨r0, cs, cnt, f, l⟩

theorem getElem?_eq_some_getD {α} (l : List α) (i : Nat) (d : α) (h : i < l.length) :
    l[i]? = some (l.getD i d) := by
  rw [List.getD_eq_getElem?_getD, List.getElem?_eq_getElem h]
  rfl

/-- Unconditional form: projection sync never changes any ring's vertex
count (each guard failure returns the input; the success path only writes
existing slots in place). -/
theorem syncProjection_shape (distGt : Position → Position → Bool)
    (g : MultiPolygonCoords) (editedPolyline : List Position)
    (info : AdjacentPatchInfo) :
    ringShape (syncBoundaryByProjection distGt g editedPolyline info).geometry =
      ringShape g := by
  simp only [syncBoundaryByProjection]
  split
  · rfl
  · split
    · rfl
    · rename_i ring heq
      split
      · rfl
      · split
        · rfl
        · split
          · rfl
          · split
            · rfl
            · apply ringShape_set _ heq
              rw [List.length_set]
              exact projFold_length _ _ _

/-! ## C5: syncBoundaryByProjection preserves vertex counts -/

/-- C5: for every neighbour geometry, edited polyline of length at least 2
and adjacency record whose shared-range indices are in range for the
target ring, the geometry returned by syncBoundaryByProjection has exactly
the same number of vertices in every ring as the input geometry. -/
theorem syncBoundaryByProjection_preserves_vertex_count
    (distGt : Position → Position → Bool) (g : MultiPolygonCoords)
    (editedPolyline : List Position) (info : AdjacentPatchInfo)
    (ring : LinearRing)
    (hpl : 2 ≤ editedPolyline.length)
    (hr : ringAt g info.polygonIndex info.ringIndex = some ring)
    (hs : 0 ≤ info.startIndex ∧ info.startIndex < (getOpenVertexCount ring : Int))
    (he : 0 ≤ info.endIndex ∧ info.endIndex < (getOpenVertexCount ring : Int)) :
    ringShape (syncBoundaryByProjection distGt g editedPolyline info).geometry =
      ringShape g :=
  syncProjection_shape distGt g editedPolyline info

/-- C5 witness: a concrete projection run over the dense-west square. -/
theorem syncBoundaryByProjection_preserves_vertex_count_witness :
    ringShape (syncBoundaryByProjection (fun _ _ => false) geomN1 [(0, 0), (1, 0)]
      ⟨"N", "N", 3, 0, 0, 0, 3, 1, 0, 0, 3, true⟩).geometry = ringShape geomN1 :=
  syncBoundaryByProjection_preserves_vertex_count (fun _ _ => false) geomN1
    [(0, 0), (1, 0)] ⟨"N", "N", 3, 0, 0, 0, 3, 1, 0, 0, 3, true⟩ ringN1
    (by decide) rfl (by decide) (by decide)

/-! ## C10: modified rings are emitted in closed form -/

/-- C10: whenever syncBoundaryByProjection or syncBoundaryByDisplacement
does not return its input unchanged, the target ring of the result has the
same number of slots as before, and its last slot equals its first (the
re-close writes a copy of slot 0 over the last slot, so an open input's
final vertex is overwritten rather than appended to). -/
theorem sync_output_closed_form :
    (∀ (distGt : Position → Position → Bool) (g : MultiPolygonCoords)
        (editedPolyline : List Position) (info : AdjacentPatchInfo),
      (syncBoundaryByProjection distGt g editedPolyline info).geometry = g ∨
      ∃ r r2, ringAt g info.polygonIndex info.ringIndex = some r ∧
        ringAt (syncBoundaryByProjection distGt g editedPolyline info).geometry
          info.polygonIndex info.ringIndex = some r2 ∧
        r2.length = r.length ∧ 4 ≤ r2.length ∧ r2[0]? = r2[r2.length - 1]?) ∧
    (∀ (g : MultiPolygonCoords) (oldEditedRing newEditedRing : LinearRing)
        (pi ri : Nat),
      (syncBoundaryByDisplacement g oldEditedRing newEditedRing pi ri).geometry = g ∨
      ∃ r r2, ringAt g pi ri = some r ∧
        ringAt (syncBoundaryByDisplacement g oldEditedRing newEditedRing pi ri).geometry
          pi ri = some r2 ∧
        r2.length = r.length ∧ 4 ≤ r2.length ∧ r2[0]? = r2[r2.length - 1]?) := by
  constructor
  · intro distGt g editedPolyline info
    simp only [syncBoundaryByProjection]
    split
    · left; rfl
    · split
      · left; rfl
      · rename_i ring heq
        split
        · left; rfl
        · rename_i h4
          split
          · left; rfl
          · split
            · left; rfl
            · split
              · left; rfl
              · right
                have hfold := projFold_length_start
                  (if info.isReversed then editedPolyline.reverse else editedPolyline)
                  (sharedIndices info.startIndex.toNat info.endIndex.toNat
                    (getOpenVertexCount ring)) ring []
                refine ⟨ring, _, heq, ringAt_setRingAt _ heq, ?_, ?_, ?_⟩
                · rw [List.length_set, hfold]
                · rw [List.length_set, hfold]
                  omega
                · rw [List.length_set]
                  rw [List.getElem?_set_ne (by rw [hfold]; omega),
                    List.getElem?_set_self (by rw [hfold]; omega),
                    getElem?_eq_some_getD _ 0 (0, 0) (by rw [hfold]; omega)]
  · intro g oldEditedRing newEditedRing pi ri
    simp only [syncBoundaryByDisplacement]
    split
    · left; rfl
    · rename_i ring heq
      split
      · left; rfl
      · rename_i h4
        split
        · left; rfl
        · split
          · left; rfl
          · right
            have hfold := dispFold_length_start oldEditedRing newEditedRing
              (getOpenVertexCount oldEditedRing) (getOpenVertexCount newEditedRing)
              (getRingBBox oldEditedRing)
              (List.range (getOpenVertexCount ring)) ring [] 0 none none
            refine ⟨ring, _, heq, ringAt_setRingAt _ heq, ?_, ?_, ?_⟩
            · rw [List.length_set, hfold]
            · rw [List.length_set, hfold]
              omega
            · rw [List.length_set]
              rw [List.getElem?_set_ne (by rw [hfold]; omega),
                List.getElem?_set_self (by rw [hfold]; omega),
                getElem?_eq_some_getD _ 0 (0, 0) (by rw [hfold]; omega)]

/-! ## C4: displacement leaves far vertices unchanged -/

theorem dispFold_far_unchanged (oldR newR : LinearRing) (oo no : Nat) (bb : BBox)
    (r0 : LinearRing) (i : Nat)
    (hfar : Q.gt (nearestPointOnRingProjected (r0.getD i (0, 0)).1
      (r0.getD i (0, 0)).2 oldR oo).1 PROXIMITY_SQ) :
    ∀ (idxs : List Nat) (st : DispState), st.ring[i]? = r0[i]? →
      ((idxs.foldl (dispStep oldR newR oo no bb) st).ring)[i]? = r0[i]? := by
  intro idxs
  induction idxs with
  | nil => intro st h; exact h
  | cons j rest ih =>
    intro st h
    rw [List.foldl_cons]
    apply ih
    by_cases hji : j = i
    · subst hji
      have hv : st.ring.getD j (0, 0) = r0.getD j (0, 0) := by
        rw [List.getD_eq_getElem?_getD, h, ← List.getD_eq_getElem?_getD]
      simp only [dispStep, hv]
      rw [if_pos hfar, ite_self]
      exact h
    · have hstep : (dispStep oldR newR oo no bb st j).ring[i]? = st.ring[i]? := by
        simp only [dispStep]
        split
        · rfl
        · split
          · rfl
          · split
            · rfl
            · split
              · rfl
              · exact List.getElem?_set_ne hji
      rw [hstep, h]

/-- C4: for every neighbour geometry and old/new edited rings with at
least 3 open vertices, every vertex of the target ring (other than the
closing slot, which the re-close rewrites) whose squared degree-space
distance to the old edited ring exceeds τ² = 4·10⁻⁸ keeps its original
coordinates in the geometry syncBoundaryByDisplacement returns. -/
theorem syncBoundaryByDisplacement_far_vertex_unchanged
    (g : MultiPolygonCoords) (oldEditedRing newEditedRing : LinearRing)
    (pi ri : Nat) (r : LinearRing) (i : Nat)
    (h3old : 3 ≤ getOpenVertexCount oldEditedRing)
    (h3new : 3 ≤ getOpenVertexCount newEditedRing)
    (hr : ringAt g pi ri = some r)
    (hi : i + 1 < r.length)
    (hfar : Q.gt (nearestPointOnRingProjected (r.getD i (0, 0)).1 (r.getD i (0, 0)).2
      oldEditedRing (getOpenVertexCount oldEditedRing)).1 PROXIMITY_SQ) :
    ∃ r2, ringAt (syncBoundaryByDisplacement g oldEditedRing newEditedRing pi ri).geometry
        pi ri = some r2 ∧ r2[i]? = r[i]? := by
  simp only [syncBoundaryByDisplacement, hr]
  split
  · exact ⟨r, hr, rfl⟩
  · split
    · exact ⟨r, hr, rfl⟩
    · split
      · exact ⟨r, hr, rfl⟩
      · have hfold := dispFold_length_start oldEditedRing newEditedRing
          (getOpenVertexCount oldEditedRing) (getOpenVertexCount newEditedRing)
          (getRingBBox oldEditedRing)
          (List.range (getOpenVertexCount r)) r [] 0 none none
        refine ⟨_, ringAt_setRingAt _ hr, ?_⟩
        rw [List.getElem?_set_ne (by rw [hfold]; omega)]
        exact dispFold_far_unchanged oldEditedRing newEditedRing
          (getOpenVertexCount oldEditedRing) (getOpenVertexCount newEditedRing)
          (getRingBBox oldEditedRing) r i hfar
          (List.range (getOpenVertexCount r)) ⟨r, [], 0, none, none⟩ rfl

/-- C4 witness: in the concrete displacement run, vertex 0 of the
neighbour ring lies 0.21° from the old edited square (far beyond τ) and is
returned unchanged. -/
theorem syncBoundaryByDisplacement_far_vertex_unchanged_witness :
    ∃ r2, ringAt (syncBoundaryByDisplacement geomD3 oldR3 newR3 0 0).geometry 0 0 =
        some r2 ∧
      r2[0]? = [((121 : Q)/100, (11 : Q)/20), (1, 1/2), (1, 3/5), (3, 3/5)][0]? :=
  syncBoundaryByDisplacement_far_vertex_unchanged geomD3 oldR3 newR3 0 0
    [((121 : Q)/100, (11 : Q)/20), (1, 1/2), (1, 3/5), (3, 3/5)] 0
    (by decide) (by decide) rfl (by decide) (by decide)

/-! ## C3: connection quality -/

/-- assessConnectionQuality returns poor exactly when the angle or
distance test fires at one of the two endpoints (both neighbour points
present). -/
theorem assess_poor_iff (distGt : Position → Position → Bool)
    (bp s0 sl ap : Position) :
    assessConnectionQuality distGt (some bp) s0 sl (some ap) = .poor ↔
      ((angleLt30 bp s0 (if s0 = sl then ap else sl) = true ∨ distGt bp s0 = true) ∨
       (angleLt30 (if sl = s0 then bp else s0) sl ap = true ∨ distGt sl ap = true)) := by
  simp only [assessConnectionQuality, Option.isSome_some, and_true, Option.getD_some]
  cases h1 : angleLt30 bp s0 (if s0 = sl then ap else sl) <;>
    cases h2 : distGt bp s0 <;>
      cases h3 : angleLt30 (if sl = s0 then bp else s0) sl ap <;>
        cases h4 : distGt sl ap <;>
          simp [h1, h2, h3, h4]

/-- C3 counterexample: a successful displacement run whose connection
angle at the first displaced vertex (connectionStart), formed with its
unedited-side neighbour ring2[0] = (1.21, 0.55) and the last displaced
vertex, is ≈ 11° < 30°, yet snapQuality is good: syncBoundaryByDisplacement
never evaluates the angle/distance tests, refuting that its snapQuality is
poor exactly when those thresholds fire. -/
theorem displacement_quality_counterexample :
    (syncBoundaryByDisplacement geomD3 oldR3 newR3 0 0).quality = .good ∧
    (syncBoundaryByDisplacement geomD3 oldR3 newR3 0 0).displacedCount = 2 ∧
    (syncBoundaryByDisplacement geomD3 oldR3 newR3 0 0).connectionStart = (6/5, 1/2) ∧
    (syncBoundaryByDisplacement geomD3 oldR3 newR3 0 0).connectionEnd = (6/5, 3/5) ∧
    ringAt (syncBoundaryByDisplacement geomD3 oldR3 newR3 0 0).geometry 0 0 =
      some [(121/100, 11/20), (6/5, 1/2), (6/5, 3/5), (121/100, 11/20)] ∧
    angleLt30 (121/100, 11/20) (6/5, 1/2) (6/5, 3/5) = true := by
  decide

/-- C3 as amended: the projection synchroniser's snapQuality is poor
exactly when, at one of the two splice endpoints, the interior angle test
(< 30°) or the distance test (> 5 m, the distGt oracle) fires against the
neighbouring vertex on the unedited side; the displacement synchroniser
does not assess connections at all — its snapQuality is good exactly when
it displaced at least one vertex. -/
theorem syncQuality_spec :
    (∀ (g : MultiPolygonCoords) (oldEditedRing newEditedRing : LinearRing)
        (pi ri : Nat),
      (syncBoundaryByDisplacement g oldEditedRing newEditedRing pi ri).quality = .good ↔
        (syncBoundaryByDisplacement g oldEditedRing newEditedRing pi ri).displacedCount ≠ 0) ∧
    (∀ (distGt : Position → Position → Bool) (g : MultiPolygonCoords)
        (editedPolyline : List Position) (info : AdjacentPatchInfo) (ring : LinearRing),
      2 ≤ editedPolyline.length →
      ringAt g info.polygonIndex info.ringIndex = some ring →
      4 ≤ ring.length →
      3 ≤ getOpenVertexCount ring →
      0 ≤ info.startIndex →
      info.startIndex < (getOpenVertexCount ring : Int) →
      0 ≤ info.endIndex →
      info.endIndex < (getOpenVertexCount ring : Int) →
      ∃ r2,
        ringAt (syncBoundaryByProjection distGt g editedPolyline info).geometry
          info.polygonIndex info.ringIndex = some r2 ∧
        ((syncBoundaryByProjection distGt g editedPolyline info).quality = .poor ↔
          (angleLt30
              (if 0 < info.startIndex.toNat then
                r2.getD (info.startIndex.toNat - 1) (0, 0)
              else r2.getD (getOpenVertexCount ring - 1) (0, 0))
              ((syncBoundaryByProjection distGt g editedPolyline info).changedSegment.headD (0, 0))
              (if (syncBoundaryByProjection distGt g editedPolyline info).changedSegment.headD (0, 0) =
                  (syncBoundaryByProjection distGt g editedPolyline info).changedSegment.getLastD (0, 0) then
                r2.getD ((info.endIndex.toNat + 1) % getOpenVertexCount ring) (0, 0)
              else (syncBoundaryByProjection distGt g editedPolyline info).changedSegment.getLastD (0, 0)) = true ∨
            distGt
              (if 0 < info.startIndex.toNat then
                r2.getD (info.startIndex.toNat - 1) (0, 0)
              else r2.getD (getOpenVertexCount ring - 1) (0, 0))
              ((syncBoundaryByProjection distGt g editedPolyline info).changedSegment.headD (0, 0)) = true) ∨
          (angleLt30
              (if (syncBoundaryByProjection distGt g editedPolyline info).changedSegment.getLastD (0, 0) =
                  (syncBoundaryByProjection distGt g editedPolyline info).changedSegment.headD (0, 0) then
                (if 0 < info.startIndex.toNat then
                  r2.getD (info.startIndex.toNat - 1) (0, 0)
                else r2.getD (getOpenVertexCount ring - 1) (0, 0))
              else (syncBoundaryByProjection distGt g editedPolyline info).changedSegment.headD (0, 0))
              ((syncBoundaryByProjection distGt g editedPolyline info).changedSegment.getLastD (0, 0))
              (r2.getD ((info.endIndex.toNat + 1) % getOpenVertexCount ring) (0, 0)) = true ∨
            distGt
              ((syncBoundaryByProjection distGt g editedPolyline info).changedSegment.getLastD (0, 0))
              (r2.getD ((info.endIndex.toNat + 1) % getOpenVertexCount ring) (0, 0)) = true))) := by
  constructor
  · intro g oldEditedRing newEditedRing pi ri
    simp only [syncBoundaryByDisplacement]
    split
    · simp
    · split
      · simp
      · split
        · simp
        · split
          · rename_i hcount
            simp [hcount]
          · rename_i hcount
            simp [hcount]
  · intro distGt g editedPolyline info ring hpl hr h4 h3 hs0 hs1 he0 he1
    simp only [syncBoundaryByProjection, hr]
    rw [if_neg (by omega), if_neg (by omega), if_neg (by omega),
      if_neg (by omega), if_neg (by omega)]
    refine ⟨_, ringAt_setRingAt _ hr, ?_⟩
    exact assess_poor_iff distGt _ _ _ _

/-- C3 witness: the projection half applied to the concrete dense-west
square, with all guards discharged. -/
theorem syncQuality_spec_witness :
    ∃ r2,
      ringAt (syncBoundaryByProjection (fun _ _ => false) geomN1 [(0, 0), (1, 0)]
        ⟨"N", "N", 3, 0, 0, 0, 3, 1, 0, 0, 3, true⟩).geometry 0 0 = some r2 ∧
      ((syncBoundaryByProjection (fun _ _ => false) geomN1 [(0, 0), (1, 0)]
        ⟨"N", "N", 3, 0, 0, 0, 3, 1, 0, 0, 3, true⟩).quality = .poor ↔
        (angleLt30
            (if 0 < (3 : Int).toNat then r2.getD ((3 : Int).toNat - 1) (0, 0)
            else r2.getD (getOpenVertexCount ringN1 - 1) (0, 0))
            ((syncBoundaryByProjection (fun _ _ => false) geomN1 [(0, 0), (1, 0)]
              ⟨"N", "N", 3, 0, 0, 0, 3, 1, 0, 0, 3, true⟩).changedSegment.headD (0, 0))
            (if (syncBoundaryByProjection (fun _ _ => false) geomN1 [(0, 0), (1, 0)]
                ⟨"N", "N", 3, 0, 0, 0, 3, 1, 0, 0, 3, true⟩).changedSegment.headD (0, 0) =
                (syncBoundaryByProjection (fun _ _ => false) geomN1 [(0, 0), (1, 0)]
                ⟨"N", "N", 3, 0, 0, 0, 3, 1, 0, 0, 3, true⟩).changedSegment.getLastD (0, 0) then
              r2.getD (((0 : Int).toNat + 1) % getOpenVertexCount ringN1) (0, 0)
            else (syncBoundaryByProjection (fun _ _ => false) geomN1 [(0, 0), (1, 0)]
              ⟨"N", "N", 3, 0, 0, 0, 3, 1, 0, 0, 3, true⟩).changedSegment.getLastD (0, 0)) = true ∨
          (fun (_ _ : Position) => false)
            (if 0 < (3 : Int).toNat then r2.getD ((3 : Int).toNat - 1) (0, 0)
            else r2.getD (getOpenVertexCount ringN1 - 1) (0, 0))
            ((syncBoundaryByProjection (fun _ _ => false) geomN1 [(0, 0), (1, 0)]
              ⟨"N", "N", 3, 0, 0, 0, 3, 1, 0, 0, 3, true⟩).changedSegment.headD (0, 0)) = true) ∨
        (angleLt30
            (if (syncBoundaryByProjection (fun _ _ => false) geomN1 [(0, 0), (1, 0)]
                ⟨"N", "N", 3, 0, 0, 0, 3, 1, 0, 0, 3, true⟩).changedSegment.getLastD (0, 0) =
                (syncBoundaryByProjection (fun _ _ => false) geomN1 [(0, 0), (1, 0)]
                ⟨"N", "N", 3, 0, 0, 0, 3, 1, 0, 0, 3, true⟩).changedSegment.headD (0, 0) then
              (if 0 < (3 : Int).toNat then r2.getD ((3 : Int).toNat - 1) (0, 0)
              else r2.getD (getOpenVertexCount ringN1 - 1) (0, 0))
            else (syncBoundaryByProjection (fun _ _ => false) geomN1 [(0, 0), (1, 0)]
              ⟨"N", "N", 3, 0, 0, 0, 3, 1, 0, 0, 3, true⟩).changedSegment.headD (0, 0))
            ((syncBoundaryByProjection (fun _ _ => false) geomN1 [(0, 0), (1, 0)]
              ⟨"N", "N", 3, 0, 0, 0, 3, 1, 0, 0, 3, true⟩).changedSegment.getLastD (0, 0))
            (r2.getD (((0 : Int).toNat + 1) % getOpenVertexCount ringN1) (0, 0)) = true ∨
          (fun (_ _ : Position) => false)
            ((syncBoundaryByProjection (fun _ _ => false) geomN1 [(0, 0), (1, 0)]
              ⟨"N", "N", 3, 0, 0, 0, 3, 1, 0, 0, 3, true⟩).changedSegment.getLastD (0, 0))
            (r2.getD (((0 : Int).toNat + 1) % getOpenVertexCount ringN1) (0, 0)) = true)) :=
  syncQuality_spec.2 (fun _ _ => false) geomN1 [(0, 0), (1, 0)]
    ⟨"N", "N", 3, 0, 0, 0, 3, 1, 0, 0, 3, true⟩ ringN1
    (by decide) rfl (by decide) (by decide) (by decide) (by decide) (by decide) (by decide)

/-! ## C8: gap cleanup thresholds -/

/-- C8 counterexample: detectGap keeps a component that overlaps an
occupied patch by exactly 100 m² (the cleanup drops only strict
overshoots, area(overlap) > 100), so the returned gap does overlap an
occupied patch by 100 m² or more.  The subtraction loop's failure branch
(which the source catches per patch) is exercised via the corner-shaped
difference that is outside the rectangle oracle's fragment. -/
theorem detectGap_exact_overlap_counterexample :
    detectGap rectLib oldE8 newE8 [patchC8] = some (.poly (polyOfRect ⟨1, 0, 2, 2⟩)) ∧
    rectLib.intersect (.poly (polyOfRect ⟨1, 0, 2, 2⟩))
        (Geom.toShape (.polygon
          [[(2 - w8, 2 - w8), (4, 2 - w8), (4, 4), (2 - w8, 4), (2 - w8, 2 - w8)]])) =
      .ok (some (.poly (polyOfRect ⟨2 - w8, 2 - w8, 2, 2⟩))) ∧
    patchC8.geometry = some (.polygon
      [[(2 - w8, 2 - w8), (4, 2 - w8), (4, 4), (2 - w8, 4), (2 - w8, 2 - w8)]]) ∧
    rectLib.area (.poly (polyOfRect ⟨2 - w8, 2 - w8, 2, 2⟩)) = 100 := by
  decide

/-- C8 as amended: whenever detectGap returns a gap, every component has
area at least 100 m², and every occupied patch for which the overlap
computation succeeds overlaps each component by at most 100 m² (strict
overshoots are dropped; an overlap of exactly 100 m² is kept, and a patch
whose intersection fails is skipped); and whenever analysePostEdit's
gapGeometry is null its gapAreaSqm is 0. -/
theorem detectGap_cleanup_spec :
    (∀ (lib : GeoLib) (oldGeometry newGeometry : MultiPolygonCoords)
        (occupied : List PatchFeature) (gp : GapShape),
      detectGap lib oldGeometry newGeometry occupied = some gp →
      ∀ coords ∈ gp.components,
        (100 : Q) ≤ lib.area (.poly coords) ∧
        ∀ p ∈ occupied, ∀ geometry, p.geometry = some geometry →
          ∀ o, lib.intersect (.poly coords) geometry.toShape = .ok (some o) →
            lib.area o ≤ 100) ∧
    (∀ (lib : GeoLib) (editedPatchId : String)
        (oldGeometry newGeometry : MultiPolygonCoords)
        (allPatches : List PatchFeature) (pre : Option MultiPolygonCoords),
      (analysePostEdit lib editedPatchId oldGeometry newGeometry allPatches
        pre).gapGeometry = none →
      (analysePostEdit lib editedPatchId oldGeometry newGeometry allPatches
        pre).gapAreaSqm = 0) := by
  constructor
  · intro lib oldGeometry newGeometry occupied gp h coords hmem
    have hkeep : ∀ c, gapComponentKeep lib occupied c = true →
        (100 : Q) ≤ lib.area (.poly c) ∧
        ∀ p ∈ occupied, ∀ geometry, p.geometry = some geometry →
          ∀ o, lib.intersect (.poly c) geometry.toShape = .ok (some o) →
            lib.area o ≤ 100 := by
      intro c hp
      simp only [gapComponentKeep] at hp
      by_cases harea : lib.area (.poly c) < 100
      · rw [if_pos harea] at hp
        exact Bool.noConfusion hp
      · rw [if_neg harea] at hp
        refine ⟨Q.le_of_not_lt harea, ?_⟩
        intro p hpmem geometry hgeo o hint
        have hall := (List.all_eq_true.mp hp) p hpmem
        simp only [hgeo, hint] at hall
        exact Q.le_of_not_lt (of_decide_eq_true hall)
    simp only [detectGap] at h
    split at h
    · exact Option.noConfusion h
    · exact Option.noConfusion h
    · split at h
      · exact Option.noConfusion h
      · rename_i g hg
        revert h
        cases hfc : g.components.filter (gapComponentKeep lib occupied) with
        | nil => intro h; exact Option.noConfusion h
        | cons c rest =>
          cases rest with
          | nil =>
            intro h
            simp only [] at h
            rw [← Option.some.inj h] at hmem
            simp only [GapShape.components, List.mem_singleton] at hmem
            subst hmem
            exact hkeep coords (List.of_mem_filter (hfc ▸ List.mem_singleton.mpr rfl))
          | cons c2 rest2 =>
            intro h
            simp only [] at h
            rw [← Option.some.inj h] at hmem
            simp only [GapShape.components] at hmem
            exact hkeep coords (List.of_mem_filter (hfc ▸ hmem))
  · intro lib editedPatchId oldGeometry newGeometry allPatches pre h
    simp only [analysePostEdit] at h ⊢
    rw [h]

/-- C8 witness: the amended guarantee applied at the concrete gap
configuration. -/
theorem detectGap_cleanup_spec_witness :
    ∀ coords ∈ (GapShape.poly (polyOfRect ⟨1, 0, 2, 2⟩)).components,
      (100 : Q) ≤ rectLib.area (.poly coords) ∧
      ∀ p ∈ [patchC8], ∀ geometry, p.geometry = some geometry →
        ∀ o, rectLib.intersect (.poly coords) geometry.toShape = .ok (some o) →
          rectLib.area o ≤ 100 :=
  detectGap_cleanup_spec.1 rectLib oldE8 newE8 [patchC8]
    (.poly (polyOfRect ⟨1, 0, 2, 2⟩)) (by decide)

/-! ## C9: adjacency under role swap -/

/-- C9 counterexample: with ring A carrying 3 and ring B carrying 4
vertices on the shared edge x = 2, running the detector with A as the
edited ring finds a shared segment with matchedVertexCount 4 and
isReversed true, while swapping the roles finds matchedVertexCount 3 (not
4) with isReversed still true (not negated). -/
theorem findAdjacentPatches_swap_counterexample :
    (findAdjacentPatches "A" ringA9 patchesC9 0 0).map
        (fun a => (a.matchedVertexCount, a.isReversed)) = [(4, true)] ∧
    (findAdjacentPatches "B" ringB9 patchesC9 0 0).map
        (fun a => (a.matchedVertexCount, a.isReversed)) = [(3, true)] := by
  decide

/-- C9 as amended: matchedVertexCount counts the current neighbour ring's
vertices in the shared zone, so it changes under a role swap whenever the
densities differ, and isReversed — a symmetric relation between the two
windings — is preserved, not negated.  Demonstrated exactly on the
two-square configuration: the full records of both runs. -/
theorem findAdjacentPatches_swap_spec :
    findAdjacentPatches "A" ringA9 patchesC9 0 0 =
      [⟨"B", "B", 3, 0, 0, 0, 3, 1, 0, 0, 4, true⟩] ∧
    findAdjacentPatches "B" ringB9 patchesC9 0 0 =
      [⟨"A", "A", 1, 3, 0, 0, 0, 3, 0, 0, 3, true⟩] := by
  decide

/-! ## C2: the S2 retraction -/

/-- C2 counterexample: in the S2 configuration (east side retracted from
x = 2 to x = 1.5, neighbour west side at x = 2), analysePostEdit does
return the neighbour, but with relationship aligned — never gap:
classifyNeighbourRelationship has no gap outcome. -/
theorem analysePostEdit_s2_counterexample :
    (analysePostEdit rectLib "E" oldE2 newE2 patchesC2 none).neighbours ≠ [] ∧
    ∀ n ∈ (analysePostEdit rectLib "E" oldE2 newE2 patchesC2 none).neighbours,
      n.relationship ≠ .gap := by
  decide

/-- C2 as amended: in the S2 configuration analysePostEdit returns the
retracted-from neighbour with relationship aligned (the gap is reported
through gapGeometry, not through the neighbour relationship), and a
non-null gap polygon — the lost slab [1.5, 2] × [0, 2] — with positive
reported area. -/
theorem analysePostEdit_s2_spec :
    (analysePostEdit rectLib "E" oldE2 newE2 patchesC2 none).neighbours.map
        (fun n => (n.patchId, n.relationship)) = [("B", .aligned)] ∧
    (analysePostEdit rectLib "E" oldE2 newE2 patchesC2 none).gapGeometry =
      some (.poly [[(3/2, 0), (2, 0), (2, 2), (3/2, 2), (3/2, 0)]]) ∧
    Q.gt (analysePostEdit rectLib "E" oldE2 newE2 patchesC2 none).gapAreaSqm 0 := by
  decide

/-! ## C1: analysePostEdit with an identity edit -/

/-- C1 counterexample: with the new geometry equal to the old geometry and
no pre-edit simplified geometry, analysePostEdit still returns the
adjacency-detected neighbour — the neighbours list is not empty (the
edited range does not collapse: the remap maps each index to itself). -/
theorem analysePostEdit_identity_counterexample :
    (analysePostEdit rectLib "P" geomP1 geomP1 patchesC1 none).neighbours ≠ [] ∧
    (analysePostEdit rectLib "P" geomP1 geomP1 patchesC1 none).neighbours.map
      NeighbourInfo.patchId = ["N"] := by
  decide

theorem mem_duplicateIdsOf (lib : GeoLib) (editedPatchId : String)
    (g : MultiPolygonCoords) (patches : List PatchFeature) (id : String) :
    id ∈ duplicateIdsOf lib editedPatchId g patches ↔
      ∃ p ∈ patches, p.id = id ∧ isPreExistingDuplicate lib editedPatchId g p = true := by
  unfold duplicateIdsOf
  rw [List.mem_filterMap]
  constructor
  · rintro ⟨p, hp, hf⟩
    refine ⟨p, hp, ?_⟩
    by_cases h1 : p.id = editedPatchId
    · rw [if_pos h1] at hf
      exact Option.noConfusion hf
    · rw [if_neg h1] at hf
      cases hgeo : p.geometry with
      | none =>
        rw [hgeo] at hf
        exact Option.noConfusion hf
      | some geometry =>
        simp only [hgeo] at hf
        by_cases h2 : isDuplicateGeometry lib g geometry.toMP
        · rw [if_pos h2] at hf
          injection hf with hf
          refine ⟨hf, ?_⟩
          unfold isPreExistingDuplicate
          rw [hgeo, Bool.and_eq_true]
          exact ⟨decide_eq_true h1, h2⟩
        · rw [if_neg h2] at hf
          exact Option.noConfusion hf
  · rintro ⟨p, hp, hid, hdup⟩
    refine ⟨p, hp, ?_⟩
    unfold isPreExistingDuplicate at hdup
    rw [Bool.and_eq_true] at hdup
    obtain ⟨h1, h2⟩ := hdup
    rw [if_neg (of_decide_eq_true h1)]
    cases hgeo : p.geometry with
    | none =>
      rw [hgeo] at h2
      exact Bool.noConfusion h2
    | some geometry =>
      rw [hgeo] at h2
      simp only [hgeo]
      rw [if_pos h2, hid]

theorem mapPhase_isDup (lib : GeoLib) (newGeometry : MultiPolygonCoords)
    (patches : List PatchFeature) (duplicateIds : List String)
    (adjacentPatches : List AdjacentPatchInfo) :
    ∀ n ∈ mapPhaseNeighbours lib newGeometry patches duplicateIds adjacentPatches,
      n.isDuplicate = duplicateIds.contains n.patchId := by
  intro n hn
  unfold mapPhaseNeighbours at hn
  rw [List.mem_filterMap] at hn
  obtain ⟨adj, _, hf⟩ := hn
  cases hfind : patches.find? (fun p => p.id = adj.patchId) with
  | none =>
    rw [hfind] at hf
    exact Option.noConfusion hf
  | some neighbour =>
    simp only [hfind] at hf
    cases hgeo : neighbour.geometry with
    | none =>
      simp only [hgeo] at hf
      exact Option.noConfusion hf
    | some nGeometry =>
      simp only [hgeo] at hf
      injection hf with hf
      rw [← hf]

theorem addDuplicateStep_mono (editedPatchId : String) (duplicateIds : List String)
    (acc : List NeighbourInfo) (q : PatchFeature) (n : NeighbourInfo)
    (h : n ∈ acc) : n ∈ addDuplicateStep editedPatchId duplicateIds acc q := by
  unfold addDuplicateStep
  split
  · exact h
  · split
    · exact h
    · split
      · exact h
      · exact List.mem_append_left _ h

theorem addLoop_mono (editedPatchId : String) (duplicateIds : List String) :
    ∀ (patches : List PatchFeature) (acc : List NeighbourInfo) (n : NeighbourInfo),
      n ∈ acc → n ∈ addMissingDuplicates editedPatchId patches duplicateIds acc := by
  intro patches
  induction patches with
  | nil => intro acc n h; exact h
  | cons q rest ih =>
    intro acc n h
    exact ih (addDuplicateStep editedPatchId duplicateIds acc q) n
      (addDuplicateStep_mono editedPatchId duplicateIds acc q n h)

theorem addLoop_invariant (editedPatchId : String) (duplicateIds : List String) :
    ∀ (patches : List PatchFeature) (acc : List NeighbourInfo),
      (∀ n ∈ acc, n.isDuplicate = duplicateIds.contains n.patchId) →
      ∀ n ∈ addMissingDuplicates editedPatchId patches duplicateIds acc,
        n.isDuplicate = duplicateIds.contains n.patchId := by
  intro patches
  induction patches with
  | nil => intro acc hacc n hn; exact hacc n hn
  | cons q rest ih =>
    intro acc hacc n hn
    refine ih (addDuplicateStep editedPatchId duplicateIds acc q) ?_ n hn
    intro m hm
    unfold addDuplicateStep at hm
    split at hm
    · exact hacc m hm
    · split at hm
      · exact hacc m hm
      · split at hm
        · exact hacc m hm
        · rename_i hne hcont hany
          rw [List.mem_append] at hm
          cases hm with
          | inl hm => exact hacc m hm
          | inr hm =>
            rw [List.mem_singleton] at hm
            subst hm
            show true = duplicateIds.contains q.id
            rw [Decidable.not_not.mp hcont]

theorem addLoop_complete (editedPatchId : String) (duplicateIds : List String) :
    ∀ (patches : List PatchFeature) (acc : List NeighbourInfo) (p : PatchFeature),
      p ∈ patches → p.id ≠ editedPatchId → duplicateIds.contains p.id = true →
      ∃ n ∈ addMissingDuplicates editedPatchId patches duplicateIds acc,
        n.patchId = p.id := by
  intro patches
  induction patches with
  | nil =>
    intro acc p hp
    exact absurd hp (List.not_mem_nil p)
  | cons q rest ih =>
    intro acc p hp hne hcont
    rw [List.mem_cons] at hp
    cases hp with
    | inl heq =>
      subst heq
      show ∃ n ∈ addMissingDuplicates editedPatchId rest duplicateIds
        (addDuplicateStep editedPatchId duplicateIds acc p), n.patchId = p.id
      by_cases hany : acc.any (fun n => n.patchId = p.id)
      · obtain ⟨x, hx, hxe⟩ := List.any_eq_true.mp hany
        refine ⟨x, ?_, of_decide_eq_true hxe⟩
        apply addLoop_mono
        unfold addDuplicateStep
        rw [if_neg hne, if_neg (not_not_intro hcont), if_pos hany]
        exact hx
      · refine ⟨duplicateEntry p, ?_, rfl⟩
        apply addLoop_mono
        unfold addDuplicateStep
        rw [if_neg hne, if_neg (not_not_intro hcont), if_neg hany]
        exact List.mem_append_right _ (List.mem_singleton.mpr rfl)
    | inr hrest =>
      exact ih (addDuplicateStep editedPatchId duplicateIds acc q) p hrest hne hcont

/-- C1 as amended: with the new geometry equal to the old geometry and no
pre-edit simplified geometry — assuming the library's set difference of a
geometry with itself is empty, and unique patch ids — analysePostEdit
returns a null gapGeometry with gapAreaSqm 0, and its duplicates list
carries exactly the ids of the patches that were already duplicates of the
old geometry (the >95%-of-smaller-area test); the neighbours list is the
adjacency-derived non-duplicate neighbour set and need not be empty. -/
theorem analysePostEdit_identity_spec (lib : GeoLib) (editedPatchId : String)
    (g : MultiPolygonCoords) (patches : List PatchFeature)
    (hids : (patches.map PatchFeature.id).Nodup)
    (hdiff : lib.difference (.multi g) (.multi g) = .ok none) :
    (analysePostEdit lib editedPatchId g g patches none).gapGeometry = none ∧
    (analysePostEdit lib editedPatchId g g patches none).gapAreaSqm = 0 ∧
    ∀ id, (∃ n ∈ (analysePostEdit lib editedPatchId g g patches none).duplicates,
        n.patchId = id) ↔
      ∃ p ∈ patches, p.id = id ∧ isPreExistingDuplicate lib editedPatchId g p = true := by
  have hgap : (analysePostEdit lib editedPatchId g g patches none).gapGeometry = none := by
    simp only [analysePostEdit, detectGap, hdiff]
  refine ⟨hgap, ?_, ?_⟩
  · simp only [analysePostEdit] at hgap ⊢
    rw [hgap]
  · intro id
    constructor
    · rintro ⟨n, hn, hnid⟩
      simp only [analysePostEdit] at hn
      rw [List.mem_filter] at hn
      obtain ⟨hmem, hdup⟩ := hn
      have hinv := addLoop_invariant editedPatchId
        (duplicateIdsOf lib editedPatchId g patches) patches _
        (mapPhase_isDup lib g patches (duplicateIdsOf lib editedPatchId g patches) _)
        n hmem
      rw [hdup] at hinv
      have hmemid : n.patchId ∈ duplicateIdsOf lib editedPatchId g patches :=
        List.elem_iff.mp hinv.symm
      obtain ⟨p, hp, hpid, hpre⟩ :=
        (mem_duplicateIdsOf lib editedPatchId g patches n.patchId).mp hmemid
      exact ⟨p, hp, hpid.trans hnid, hpre⟩
    · rintro ⟨p, hp, hpid, hpre⟩
      have hne : p.id ≠ editedPatchId := by
        unfold isPreExistingDuplicate at hpre
        rw [Bool.and_eq_true] at hpre
        exact of_decide_eq_true hpre.1
      have hmemid : p.id ∈ duplicateIdsOf lib editedPatchId g patches :=
        (mem_duplicateIdsOf lib editedPatchId g patches p.id).mpr ⟨p, hp, rfl, hpre⟩
      have hcont : (duplicateIdsOf lib editedPatchId g patches).contains p.id = true :=
        List.elem_iff.mpr hmemid
      obtain ⟨n, hn, hnid⟩ := addLoop_complete editedPatchId
        (duplicateIdsOf lib editedPatchId g patches) patches
        (mapPhaseNeighbours lib g patches (duplicateIdsOf lib editedPatchId g patches)
          (dedupStrongest
            ((adjacencyCandidates editedPatchId g patches).map (remapCandidate g g))))
        p hp hne hcont
      have hinv := addLoop_invariant editedPatchId
        (duplicateIdsOf lib editedPatchId g patches) patches _
        (mapPhase_isDup lib g patches (duplicateIdsOf lib editedPatchId g patches) _)
        n hn
      refine ⟨n, ?_, hnid.trans hpid⟩
      simp only [analysePostEdit]
      rw [List.mem_filter]
      refine ⟨hn, ?_⟩
      rw [hinv, hnid]
      exact hcont

/-- C1 witness: the amended statement applied to the concrete two-square
patch set with the rectangle library, whose self-difference is empty. -/
theorem analysePostEdit_identity_spec_witness :
    (analysePostEdit rectLib "P" geomP1 geomP1 patchesC1 none).gapGeometry = none ∧
    (analysePostEdit rectLib "P" geomP1 geomP1 patchesC1 none).gapAreaSqm = 0 ∧
    ∀ id, (∃ n ∈ (analysePostEdit rectLib "P" geomP1 geomP1 patchesC1 none).duplicates,
        n.patchId = id) ↔
      ∃ p ∈ patchesC1, p.id = id ∧ isPreExistingDuplicate rectLib "P" geomP1 p = true :=
  analysePostEdit_identity_spec rectLib "P" geomP1 patchesC1 (by decide) (by decide)

end GeomEdit
